import Mathlib

/-!
# dalsa-grabber: the frame reordering engine of `dalsaCamera.cpp`

A shallow embedding of `DalsaCamera` (src/dalsaCamera.cpp): the constructor, `open`,
`nextAcquiredImage`, `getNextImage`, `logImg`, `periodMicroseconds` and `combineTimestamps`.

Conventions of the embedding.

* `uint64_t` and `uint32_t` values are natural numbers; every machine operation that can wrap is
  written with an explicit `% 2 ^ 64` (or `% 2 ^ 32`).
* `float`/`double` values are rationals and their arithmetic is exact: rounding error, infinities
  and NaN are outside the model.  `int` values are integers (signed overflow is undefined in C++
  and outside the model).
* `std::map<uint64_t, GEV_BUFFER_OBJECT*>` is a finite map with unique keys (`AList`).
* The GigE-V library is external.  Its side of the world is the record `Gev`: how the device
  answers control calls, the results `GevWaitForNextImage` is going to give, in order (after the
  last one the call times out), and the trace of library calls made so far.
* A C++ function maps the camera object (which carries the `Gev` world) to an `Outcome` and the
  new camera object.  An outcome is a normal return, a thrown exception, or non-termination.
-/

/-! ## Constants -/

/-- `#define NUM_BUF 64`: the number of image buffers. -/
def NUM_BUF : Nat := 64

/-- `#define TIMEOUT_US 10000`: the timeout of one image acquisition. -/
def TIMEOUT_US : Nat := 10000

/-- Modelled from the spec: the status code `GEVLIB_OK` of `gevapi.h` (a header that is not part
of the sources), "the transport status code is ... OK". -/
def GEVLIB_OK : Int := 0

/-- The number of values of a `uint64_t`. -/
def UINT64_SIZE : Nat := 2 ^ 64

/-- The exception every failed check of `nextAcquiredImage` throws. -/
def acquisitionFailure : String := "next_acquired_image failure"

/-! ## The GigE-V side -/

/-- Modelled from the spec: the AcquiredFrame, "hardware timestamp (64-bit, composed from a high
and low 32-bit hardware counter), width, height, pixel depth, pixel format, raw buffer reference,
delivery status flag".  It is the `GEV_BUFFER_OBJECT` of `gevapi.h`, a header that is not among
the sources; the fields are the ones the source reads.  `address` is the data pointer: `none` is
`NULL`, `some a` is the address of the image buffer `a`. -/
structure GEV_BUFFER_OBJECT where
  status : Int
  timestamp_hi : Nat
  timestamp_lo : Nat
  w : Nat
  h : Nat
  d : Nat
  format : Nat
  address : Option Nat
deriving DecidableEq, Repr

/-- Modelled from the spec: what the Transport's `acquire` gives, "(bufferHandle, timestampLow,
timestampHigh, status) | Timeout".  In the source it is one call of `GevWaitForNextImage`: its
return value and the image object pointer it stores (`none` when it leaves the pointer
`NULL`). -/
structure WaitResult where
  status : Int
  imgGev : Option GEV_BUFFER_OBJECT
deriving DecidableEq, Repr

/-- A call into the GigE-V library (or of `malloc`), as recorded in the trace. -/
inductive GevCall where
  | getLibraryConfigOptions
  | setLibraryConfigOptions
  | getCameraList
  | openCamera
  | getCameraInterfaceOptions
  | setCameraInterfaceOptions
  | initGenICamXMLFeatures
  | getGenICamXMLFileName
  | setFeatureValue (feature : String) (value : ℚ)
  | getFeatureValue (feature : String)
  | getFeatureValueAsString (feature : String)
  | malloc (size : Int)
  | initializeTransfer (size : Int) (numBuf : Nat)
  | startTransfer
  | waitForNextImage (result : WaitResult)
  | releaseImage (img : GEV_BUFFER_OBJECT)
deriving DecidableEq

/-- Modelled from the spec: the Device Control Interface, "`configure(feature, value) -> Result`,
`query(feature) -> value`".  It says how the device answers the control calls of `open`: the
status each call returns (non-zero is a failure) and the values it reports (`none`: the query
fails and leaves the variable as it was). -/
structure GevDevice where
  getCameraListStatus : Int
  numCameras : Int
  openCameraStatus : Int
  initGenICamXMLFeaturesStatus : Int
  getGenICamXMLFileNameStatus : Int
  setFeatureValueStatus : String → ℚ → Int
  getFeatureInt : String → Option Int
  getFeatureFloat : String → Option ℚ
  pixelSizeInBytes : Int → Int
  initializeTransferStatus : Int
  startTransferStatus : Int

/-- The library's side of the world. -/
structure Gev where
  device : GevDevice
  incoming : List WaitResult
  trace : List GevCall

/-- The status and image pointer `GevWaitForNextImage` gives once nothing more arrives: a timeout,
the pointer left `NULL`. -/
def waitTimeout : WaitResult := { status := -1, imgGev := none }

/-- Record a library call in the trace. -/
def Gev.call (g : Gev) (c : GevCall) : Gev := { g with trace := g.trace ++ [c] }

/-- `GevWaitForNextImage(handle, &imgGev, TIMEOUT_US)`: the next result of the transport. -/
def Gev.waitForNextImage (g : Gev) : WaitResult × Gev :=
  match g.incoming with
  | [] => (waitTimeout, g.call (.waitForNextImage waitTimeout))
  | r :: rest => (r, { g with incoming := rest, trace := g.trace ++ [.waitForNextImage r] })

/-- The image objects handed to `GevReleaseImage`, oldest first. -/
def releasedImages : List GevCall → List GEV_BUFFER_OBJECT
  | [] => []
  | .releaseImage img :: cs => img :: releasedImages cs
  | _ :: cs => releasedImages cs

/-- The image objects `GevWaitForNextImage` handed out, oldest first. -/
def acquiredImages : List GevCall → List GEV_BUFFER_OBJECT
  | [] => []
  | .waitForNextImage r :: cs =>
    match r.imgGev with
    | some img => img :: acquiredImages cs
    | none => acquiredImages cs
  | _ :: cs => acquiredImages cs

/-! ## The camera object -/

/-- `std::map<uint64_t, GEV_BUFFER_OBJECT*> _reorderingMap`. -/
abbrev ReorderingMap := AList (fun _ : Nat => GEV_BUFFER_OBJECT)

/-- A `cv::Mat` produced by `getNextImage`: the debayered pixels of `frame` at the size given. -/
structure Mat where
  rows : Int
  cols : Int
  frame : GEV_BUFFER_OBJECT
deriving DecidableEq, Repr

/-- Modelled from the spec: the Session, the Session Clock and the PendingMap.  The class is
declared in `dalsaCamera.h`, a header that is not among the sources; the members are the ones the
member functions of `dalsaCamera.cpp` use, `_tNextFrameMicroseconds` a `uint64_t` like the loop
variable it is compared with.  The record also carries the library's side of the world. -/
structure DalsaCamera where
  numBuf : Nat
  frameCount : Nat
  timestampPrevFrame : Int
  debug : Bool
  _width : Int
  _height : Int
  _framerate : ℚ
  _exposure : ℚ
  _isOpened : Int
  _tNextFrameMicroseconds : Nat
  _reorderingMap : ReorderingMap
  gev : Gev

/-- How a call ends. -/
inductive Outcome (α : Type) where
  | returned (value : α)
  | thrown (what : String)
  | diverged
deriving DecidableEq, Repr

/-- `DalsaCamera::DalsaCamera(bool debugMode)`.  The constructor leaves `_exposure`, `_isOpened`,
`_tNextFrameMicroseconds` indeterminate: they are the parameters `exposure0`, `isOpened0`,
`tNext0`. -/
def DalsaCamera.new (debugMode : Bool) (exposure0 : ℚ) (isOpened0 : Int) (tNext0 : Nat)
    (gev : Gev) : DalsaCamera :=
  { numBuf := NUM_BUF
    frameCount := 0
    timestampPrevFrame := -1
    debug := debugMode
    _width := 0
    _height := 0
    _framerate := 0
    _exposure := exposure0
    _isOpened := isOpened0
    _tNextFrameMicroseconds := tNext0
    _reorderingMap := ∅
    gev := gev }

/-- `DalsaCamera::width`. -/
def DalsaCamera.width (cam : DalsaCamera) : Int := cam._width

/-- `DalsaCamera::height`. -/
def DalsaCamera.height (cam : DalsaCamera) : Int := cam._height

/-- `DalsaCamera::framerate`. -/
def DalsaCamera.framerate (cam : DalsaCamera) : ℚ := cam._framerate

/-- `DalsaCamera::isOpened`. -/
def DalsaCamera.isOpened (cam : DalsaCamera) : Int := cam._isOpened

/-- The C function `round`: to the nearest integer, halfway cases away from zero. -/
def cRound (x : ℚ) : Int := if 0 ≤ x then ⌊x + 1 / 2⌋ else ⌈x - 1 / 2⌉

/-- `DalsaCamera::periodMicroseconds`: `round(1.0/_framerate*1000000.0)`, converted to `int`.
For a `_framerate` of zero, or one whose period does not fit an `int`, the conversion is
undefined in C++; the model gives the rational arithmetic of Lean there. -/
def DalsaCamera.periodMicroseconds (cam : DalsaCamera) : Int :=
  cRound (1 / cam._framerate * 1000000)

/-- `DalsaCamera::combineTimestamps`: `((uint64_t)high << 32) + low` for `uint32_t` arguments. -/
def combineTimestamps (low high : Nat) : Nat :=
  ((high % 2 ^ 32) * 2 ^ 32 % UINT64_SIZE + low % 2 ^ 32) % UINT64_SIZE

/-- The 64-bit hardware timestamp of an image object. -/
def GEV_BUFFER_OBJECT.timestamp (img : GEV_BUFFER_OBJECT) : Nat :=
  combineTimestamps img.timestamp_lo img.timestamp_hi

/-- A `uint64_t` plus an `int`, in `uint64_t` arithmetic. -/
def uint64AddInt (t : Nat) (i : Int) : Nat := (((t : Int) + i) % (UINT64_SIZE : Int)).toNat

/-- A `uint64_t` minus a `uint64_t`, in `uint64_t` arithmetic. -/
def uint64Sub (a b : Nat) : Nat := (((a : Int) - (b : Int)) % (UINT64_SIZE : Int)).toNat

/-! ## Acquisition -/

/-- The checks of `DalsaCamera::nextAcquiredImage` on what `GevWaitForNextImage` gave: a `NULL`
image object, a status that is not `GEVLIB_OK` and a `NULL` data pointer throw; a non-zero
`imgGev->status` is only logged. -/
def checkAcquired (r : WaitResult) : Except String GEV_BUFFER_OBJECT :=
  match r.imgGev with
  | none => .error acquisitionFailure
  | some imgGev =>
    if r.status ≠ GEVLIB_OK then .error acquisitionFailure
    else if imgGev.address = none then .error acquisitionFailure
    else .ok imgGev

/-- `DalsaCamera::nextAcquiredImage`. -/
def DalsaCamera.nextAcquiredImage (cam : DalsaCamera) :
    Except String GEV_BUFFER_OBJECT × DalsaCamera :=
  let (r, gev) := cam.gev.waitForNextImage
  (checkAcquired r, { cam with gev := gev })

/-! ## The reordering loop -/

/-- How the `for` loop of `getNextImage` ends. -/
inductive ScanResult where
  | found (t : Nat)
  | absent
  | spins
deriving DecidableEq, Repr

/-- The loop `for(uint64_t t = ...; t <= hi; t++)` of `getNextImage` from the value `t` on: the
first `t` that is a key of the map ends it (`break`).  `fuel` bounds the iterations. -/
def scanFrom (m : ReorderingMap) (hi : Nat) : Nat → Nat → ScanResult
  | 0, _ => .spins
  | fuel + 1, t =>
    if t ≤ hi then
      if t ∈ m then .found t else scanFrom m hi fuel ((t + 1) % UINT64_SIZE)
    else .absent

/-- The whole `for` loop: `t` runs from `_tNextFrameMicroseconds-2` while
`t <= _tNextFrameMicroseconds+2`, both computed in `uint64_t`.  A loop that has not ended after
`2 ^ 64` iterations has tried every value of `t` and never ends. -/
def scanWindow (m : ReorderingMap) (tNext : Nat) : ScanResult :=
  scanFrom m ((tNext + 2) % UINT64_SIZE) UINT64_SIZE (uint64Sub tNext 2)

/-- How the `while` loop of `getNextImage` ends. -/
inductive LoopResult where
  | matched (next_timestamp : Nat) (cam : DalsaCamera)
  | thrown (what : String) (cam : DalsaCamera)
  | spins

/-- The loop `while(!next_timestamp)` of `getNextImage`: acquire, cache into the map, scan.  A
scan that ends at `t = 0` leaves `next_timestamp` zero, so the loop goes on.  Every iteration
takes one result from the transport; `fuel` is the number of iterations allowed. -/
def acquireUntilMatch : Nat → DalsaCamera → LoopResult
  | 0, _ => .spins
  | fuel + 1, cam =>
    match cam.nextAcquiredImage with
    | (.error what, cam1) => .thrown what cam1
    | (.ok nextImage, cam1) =>
      let acquired_t := nextImage.timestamp
      let cam2 := { cam1 with _reorderingMap := cam1._reorderingMap.insert acquired_t nextImage }
      match scanWindow cam2._reorderingMap cam2._tNextFrameMicroseconds with
      | .spins => .spins
      | .found t => if t ≠ 0 then .matched t cam2 else acquireUntilMatch fuel cam2
      | .absent => acquireUntilMatch fuel cam2

/-- `DalsaCamera::logImg`: counts the frame (the rest is printing). -/
def DalsaCamera.logImg (cam : DalsaCamera) (_imgGev : GEV_BUFFER_OBJECT) : DalsaCamera :=
  { cam with frameCount := cam.frameCount + 1 }

/-- `DalsaCamera::getNextImage`.  The value returned is the `int` result and what was stored
through `img` (`none`: nothing).  The transport times out once `incoming` is used up, which
throws, so the `while` loop makes at most `incoming.length + 1` iterations.  The entry read by
`_reorderingMap[next_timestamp]` is the one the scan has just found; the branch of a missing
entry stands for the null pointer `operator[]` would insert. -/
def DalsaCamera.getNextImage (cam : DalsaCamera) : Outcome (Int × Option Mat) × DalsaCamera :=
  if cam.isOpened = 0 then (.returned (1, none), cam)
  else
    match acquireUntilMatch (cam.gev.incoming.length + 1) cam with
    | .spins => (.diverged, cam)
    | .thrown what cam1 => (.thrown what, cam1)
    | .matched next_timestamp cam1 =>
      match cam1._reorderingMap.lookup next_timestamp with
      | none => (.thrown "null image object", cam1)
      | some imgGev =>
        let cam2 := { cam1 with _reorderingMap := cam1._reorderingMap.erase next_timestamp }
        let cam3 := cam2.logImg imgGev
        let cam4 := { cam3 with
          _tNextFrameMicroseconds := uint64AddInt next_timestamp cam3.periodMicroseconds }
        let rgb8BitMat : Mat := { rows := cam4.height, cols := cam4.width, frame := imgGev }
        (.returned (0, some rgb8BitMat), { cam4 with gev := cam4.gev.call (.releaseImage imgGev) })

/-! ## Opening the camera -/

/-- Record a library call made through the camera object. -/
def DalsaCamera.gevCall (cam : DalsaCamera) (c : GevCall) : DalsaCamera :=
  { cam with gev := cam.gev.call c }

/-- Record several library calls, in order. -/
def DalsaCamera.gevCalls (cam : DalsaCamera) (cs : List GevCall) : DalsaCamera :=
  cs.foldl DalsaCamera.gevCall cam

/-- `DalsaCamera::logCamera`: printing; with `debug` set it asks the device for the pixel format
as a string. -/
def DalsaCamera.logCamera (cam : DalsaCamera) : DalsaCamera :=
  if cam.debug then cam.gevCall (.getFeatureValueAsString "PixelFormat") else cam

/-- The tail of `DalsaCamera::open`, from "Obtain the first image" on: one acquisition seeds
`_tNextFrameMicroseconds` with the period plus the first frame's timestamp. -/
def DalsaCamera.seedClock (cam : DalsaCamera) : Outcome Int × DalsaCamera :=
  match cam.nextAcquiredImage with
  | (.error what, cam1) => (.thrown what, cam1)
  | (.ok img_obj, cam1) =>
    let cam2 := { cam1 with
      _tNextFrameMicroseconds :=
        uint64AddInt (combineTimestamps img_obj.timestamp_lo img_obj.timestamp_hi)
          cam1.periodMicroseconds }
    (.returned 0, { cam2 with _isOpened := 1 })

/-- The part of `DalsaCamera::open` from "Get camera settings" on: read the settings back, centre
the image, store the members, allocate the buffers, start the transfer and seed the clock.  A
`GevGetFeatureValue` that fails leaves its variable as it was (`widthMax`, `heightMax` start
indeterminate in the source; they are read as `0` then). -/
def DalsaCamera.openTransfer (cam : DalsaCamera) (width height : Int)
    (framerate : ℚ) : Outcome Int × DalsaCamera :=
  let dev := cam.gev.device
  let cam := cam.gevCalls [.getFeatureValue "Width", .getFeatureValue "Height",
    .getFeatureValue "AcquisitionFrameRate", .getFeatureValue "ExposureTime",
    .getFeatureValue "WidthMax", .getFeatureValue "HeightMax"]
  let width := dev.getFeatureInt "Width" |>.getD width
  let height := dev.getFeatureInt "Height" |>.getD height
  let framerate := dev.getFeatureFloat "AcquisitionFrameRate" |>.getD framerate
  let readExposed := dev.getFeatureFloat "ExposureTime" |>.getD (-1)
  let widthMax := dev.getFeatureInt "WidthMax" |>.getD 0
  let heightMax := dev.getFeatureInt "HeightMax" |>.getD 0
  let heightOffset := (heightMax - height).tdiv 2
  let widthOffset := (widthMax - width).tdiv 2
  let cam := cam.gevCall (.setFeatureValue "OffsetY" heightOffset)
  if dev.setFeatureValueStatus "OffsetY" heightOffset ≠ 0 then (.returned 1, cam) else
  let cam := cam.gevCall (.setFeatureValue "OffsetX" widthOffset)
  if dev.setFeatureValueStatus "OffsetX" widthOffset ≠ 0 then (.returned 1, cam) else
  let cam := { cam with
    _width := width, _height := height, _framerate := framerate, _exposure := readExposed }
  let cam := cam.logCamera
  let cam := cam.gevCall (.getFeatureValue "PixelFormat")
  let format := dev.getFeatureInt "PixelFormat" |>.getD 0
  let size := height * width * dev.pixelSizeInBytes format
  let cam := cam.gevCalls (List.replicate cam.numBuf (.malloc size))
  let cam := cam.gevCall (.initializeTransfer size cam.numBuf)
  if dev.initializeTransferStatus ≠ 0 then (.returned 1, cam) else
  let cam := cam.gevCall .startTransfer
  if dev.startTransferStatus ≠ 0 then (.returned 1, cam) else
  cam.seedClock

/-- The part of `DalsaCamera::open` that sets the features, one `GevSetFeatureValue` after the
other, each failure returning `1`. -/
def DalsaCamera.openFeatures (cam : DalsaCamera) (width height : Int)
    (framerate exposureTime : ℚ) : Outcome Int × DalsaCamera :=
  let dev := cam.gev.device
  let cam := cam.gevCall (.setFeatureValue "autoBrightnessMode" 0)
  if dev.setFeatureValueStatus "autoBrightnessMode" 0 ≠ 0 then (.returned 1, cam) else
  let cam := cam.gevCall (.setFeatureValue "ExposureTime" exposureTime)
  if dev.setFeatureValueStatus "ExposureTime" exposureTime ≠ 0 then (.returned 1, cam) else
  let cam := cam.gevCall (.setFeatureValue "AcquisitionFrameRate" framerate)
  if dev.setFeatureValueStatus "AcquisitionFrameRate" framerate ≠ 0 then (.returned 1, cam) else
  let cam := cam.gevCall (.setFeatureValue "OffsetY" 0)
  if dev.setFeatureValueStatus "OffsetY" 0 ≠ 0 then (.returned 1, cam) else
  let cam := cam.gevCall (.setFeatureValue "OffsetX" 0)
  if dev.setFeatureValueStatus "OffsetX" 0 ≠ 0 then (.returned 1, cam) else
  let cam := cam.gevCall (.setFeatureValue "Width" width)
  if dev.setFeatureValueStatus "Width" width ≠ 0 then (.returned 1, cam) else
  let cam := cam.gevCall (.setFeatureValue "Height" height)
  if dev.setFeatureValueStatus "Height" height ≠ 0 then (.returned 1, cam) else
  cam.openTransfer width height framerate

/-- `DalsaCamera::open`. -/
def DalsaCamera.open (cam : DalsaCamera) (width height : Int) (framerate exposureTime : ℚ) :
    Outcome Int × DalsaCamera :=
  -- Check validity of framerate and exposure
  if framerate ≤ 0 then (.returned 1, cam) else
  let max_exposure := 1000000 / framerate
  if max_exposure ≤ exposureTime then (.returned 1, cam) else
  let dev := cam.gev.device
  -- Set default options for the library, discover cameras
  let cam := cam.gevCalls [.getLibraryConfigOptions, .setLibraryConfigOptions, .getCameraList]
  if dev.getCameraListStatus ≠ 0 then (.returned 1, cam) else
  if dev.numCameras = 0 then (.returned 1, cam) else
  -- Open first camera
  let cam := cam.gevCall .openCamera
  if dev.openCameraStatus ≠ 0 then (.returned 1, cam) else
  let cam := cam.gevCalls [.getCameraInterfaceOptions, .getCameraInterfaceOptions,
    .setCameraInterfaceOptions, .initGenICamXMLFeatures, .getGenICamXMLFileName]
  cam.openFeatures width height framerate exposureTime

/-! ## Vocabulary of the statements -/

/-- The result of `GevWaitForNextImage` that delivers the image object `img` with status OK. -/
def okResult (img : GEV_BUFFER_OBJECT) : WaitResult := { status := GEVLIB_OK, imgGev := some img }

/-- The map after caching the image objects `imgs`, in order, each under its timestamp. -/
def cacheAll (m : ReorderingMap) (imgs : List GEV_BUFFER_OBJECT) : ReorderingMap :=
  imgs.foldl (fun m img => m.insert img.timestamp img) m

/-- The trace entries of acquiring the image objects `imgs`. -/
def waitCalls (imgs : List GEV_BUFFER_OBJECT) : List GevCall :=
  imgs.map (fun img => .waitForNextImage (okResult img))

/-- What a call of `getNextImage` that hands out a frame has done, from the camera `cam` to the
camera `cam'`: it acquired the image objects `imgs` (leaving `rest` in the transport), cached
them, its last scan found the key `t` (no scan after fewer acquisitions had found a non-zero
key), and it erased and released the image object `imgGev` stored under `t`. -/
structure FrameReleased (cam : DalsaCamera) (imgs : List GEV_BUFFER_OBJECT)
    (rest : List WaitResult) (t : Nat) (imgGev : GEV_BUFFER_OBJECT) (cam' : DalsaCamera) :
    Prop where
  opened : cam.isOpened ≠ 0
  acquired : imgs ≠ []
  valid : ∀ img ∈ imgs, img.address ≠ none
  incoming : cam.gev.incoming = imgs.map okResult ++ rest
  scan : scanWindow (cacheAll cam._reorderingMap imgs) cam._tNextFrameMicroseconds = .found t
  nonzero : t ≠ 0
  first : ∀ k, 0 < k → k < imgs.length → ∀ t',
    scanWindow (cacheAll cam._reorderingMap (imgs.take k)) cam._tNextFrameMicroseconds =
      .found t' → t' = 0
  stored : (cacheAll cam._reorderingMap imgs).lookup t = some imgGev
  after : cam' = { cam with
    frameCount := cam.frameCount + 1
    _tNextFrameMicroseconds := uint64AddInt t cam.periodMicroseconds
    _reorderingMap := (cacheAll cam._reorderingMap imgs).erase t
    gev := { cam.gev with
      incoming := rest
      trace := cam.gev.trace ++ waitCalls imgs ++ [.releaseImage imgGev] } }

/-- `_reorderingMap.size()`: the number of frames held. -/
def mapSize (m : ReorderingMap) : Nat := m.keys.length

/-- Every frame of the map is stored under its own timestamp, as `getNextImage` stores it. -/
def Keyed (m : ReorderingMap) : Prop :=
  ∀ (k : Nat) (img : GEV_BUFFER_OBJECT), m.lookup k = some img → img.timestamp = k

/-- The timestamp `k` is on the grid of the slots `e`, `e ± p`, `e ± 2p`, ... -/
def OnGrid (e p k : Nat) : Prop := ∃ i : Int, (k : Int) = e + i * p

/-- A session of `n` successive calls of `getNextImage` each of which hands out a frame: the
frames in order and the camera afterwards.  The result is `none` when one of the calls fails. -/
def DalsaCamera.getNextImages : Nat → DalsaCamera → Option (List Mat × DalsaCamera)
  | 0, cam => some ([], cam)
  | n + 1, cam =>
    match cam.getNextImage with
    | (.returned (_, some img), cam1) =>
      match getNextImages n cam1 with
      | some (imgs, cam2) => some (img :: imgs, cam2)
      | none => none
    | _ => none

/-- The timestamps of the frames a session hands out, in order; `none` when a call fails. -/
def DalsaCamera.sessionTimestamps (cam : DalsaCamera) (n : Nat) : Option (List Nat) :=
  (cam.getNextImages n).map (fun r => r.1.map (fun m => m.frame.timestamp))

/-! ## Scenarios -/

/-- An image object with the timestamp `ts` whose data pointer is `addr`. -/
def frameAt (ts addr : Nat) : GEV_BUFFER_OBJECT :=
  { status := 0, timestamp_hi := ts / 2 ^ 32, timestamp_lo := ts % 2 ^ 32,
    w := 0, h := 0, d := 0, format := 0, address := some addr }

/-- A device on which every control call succeeds and that reports the frame rate `framerate`. -/
def quietDevice (framerate : ℚ) : GevDevice :=
  { getCameraListStatus := 0
    numCameras := 1
    openCameraStatus := 0
    initGenICamXMLFeaturesStatus := 0
    getGenICamXMLFileNameStatus := 0
    setFeatureValueStatus := fun _ _ => 0
    getFeatureInt := fun _ => none
    getFeatureFloat := fun f => if f = "AcquisitionFrameRate" then some framerate else none
    pixelSizeInBytes := fun _ => 1
    initializeTransferStatus := 0
    startTransferStatus := 0 }

/-- A freshly constructed camera on a device of frame rate `framerate` whose transport is going to
deliver `incoming`. -/
def freshCamera (framerate : ℚ) (incoming : List GEV_BUFFER_OBJECT) : DalsaCamera :=
  DalsaCamera.new false 0 0 0
    { device := quietDevice framerate, incoming := incoming.map okResult, trace := [] }

/-- An opened camera of frame rate `framerate` that expects the timestamp `tNext`, holds the
frames `pending` in its map and whose transport is going to deliver `incoming`. -/
def cameraAt (tNext : Nat) (framerate : ℚ) (pending incoming : List GEV_BUFFER_OBJECT) :
    DalsaCamera :=
  { DalsaCamera.new false 0 1 tNext
      { device := quietDevice framerate, incoming := incoming.map okResult, trace := [] } with
    _framerate := framerate
    _reorderingMap := cacheAll ∅ pending }

/-- The camera of the tie: it expects `1000000`, holds the frame of `1000001` and is about to
acquire the frame of `999999`. -/
def tieCamera : DalsaCamera := cameraAt 1000000 30 [frameAt 1000001 0] [frameAt 999999 1]

/-- A camera about to acquire a frame whose own `status` field is `7`. -/
def marginalFrameCamera : DalsaCamera :=
  { cameraAt 1000000 30 [] [] with
    gev := { device := quietDevice 30
             incoming := [okResult { frameAt 1000000 0 with status := 7 }]
             trace := [] } }

/-- The camera of the reversed arrival: it expects `1000000` at 30 frames a second and its
transport delivers slot 2 (`1033333`) before slot 1 (`1000000`), then slot 4 (`1099999`). -/
def reversedCamera : DalsaCamera :=
  cameraAt 1000000 30 [] [frameAt 1033333 0, frameAt 1000000 1, frameAt 1099999 2]

/-- The camera of the jitter session: opened at 30 frames a second on a transport that delivers
the timestamps `966667` (taken by `open`, which then expects `1000000`), `999999` and
`1033334`. -/
def jitterCamera : DalsaCamera :=
  ((freshCamera 30 [frameAt 966667 0, frameAt 999999 1, frameAt 1033334 2]).open
    640 480 30 1000).2

/-- The camera of the short period: opened at 1000000 frames a second (period `1`) on a first
frame of `1000001`, it expects `1000002`; its transport then delivers `1000000` and `999999`. -/
def shortPeriodCamera : DalsaCamera :=
  ((freshCamera 1000000 [frameAt 1000001 0, frameAt 1000000 1, frameAt 999999 2]).open
    640 480 1000000 (1 / 2)).2

/-- The camera of the fast reversed arrival: opened at 500000 frames a second (period `2`) on a
first frame of `999998`, it expects `1000000`; its transport then delivers slot 2 (`1000002`)
before slot 1 (`1000000`). -/
def fastReversedCamera : DalsaCamera :=
  ((freshCamera 500000 [frameAt 999998 0, frameAt 1000002 1, frameAt 1000000 2]).open
    640 480 500000 1).2

/-- The camera of the wrapped window, reached through `open`: opened at 1000000 frames a second
(period `1`) on a first frame of timestamp `0`, it expects `1`; its transport then delivers the
frame of timestamp `2`. -/
def earlyCamera : DalsaCamera :=
  ((freshCamera 1000000 [frameAt 0 0, frameAt 2 1]).open 640 480 1000000 (1 / 2)).2

/-- The camera of the wrapped window: it expects the timestamp `1`, holds the frame of timestamp
`2` and is about to acquire the frame of timestamp `0`. -/
def wrappedWindowCamera : DalsaCamera := cameraAt 1 30 [frameAt 2 0] [frameAt 0 1]

/-- The camera of the zero timestamp: it expects `2`, holds the frame of timestamp `1` and is
about to acquire the frame of timestamp `0`. -/
def zeroKeyCamera : DalsaCamera := cameraAt 2 30 [frameAt 1 0] [frameAt 0 1]

/-- The camera of the window that wraps upward: it expects `2^64 - 2` and is about to acquire the
frame of timestamp `2^64 - 3`. -/
def upperWrapCamera : DalsaCamera :=
  cameraAt 18446744073709551614 30 [] [frameAt 18446744073709551613 0]

/-- The arrival order `0, 2, 1, 4, 3, ..., 98, 97, 99` of the end-to-end scenario: the adjacent
pairs after the first frame are swapped. -/
def swappedOrder : List Nat :=
  0 :: (List.range 49).flatMap (fun k => [2 * k + 2, 2 * k + 1]) ++ [99]

/-- The 100 frames of the end-to-end scenario, timestamps `1000000 + i*33333`, in their arrival
order. -/
def endToEndFrames : List GEV_BUFFER_OBJECT :=
  swappedOrder.map (fun i => frameAt (1000000 + i * 33333) i)

/-- The end-to-end scenario: a fresh camera whose transport delivers the 100 frames is opened at
30 frames a second. -/
def endToEndOpen : Outcome Int × DalsaCamera :=
  (freshCamera 30 endToEndFrames).open 640 480 30 1000

/-- The end-to-end scenario with the clock primed by hand: an opened camera that already expects
`1000000` and whose transport delivers the 100 frames. -/
def endToEndPrimed : DalsaCamera := cameraAt 1000000 30 [] endToEndFrames

/-- The frames of the pool-size session: timestamps `1000000 + i*33333` for `i = 0..64`, in
order.  Frame `0` arrives in buffer `0`; the transport fills the other 63 buffers of the pool in
turn, frame `i` arriving in buffer `1 + (i-1) % 63`. -/
def poolSessionFrames : List GEV_BUFFER_OBJECT :=
  frameAt 1000000 0 ::
    (List.range NUM_BUF).map (fun i => frameAt (1000000 + (i + 1) * 33333) (1 + i % 63))

/-- The pool-size session: a fresh camera whose transport delivers `poolSessionFrames` is opened
at 30 frames a second. -/
def poolSessionOpen : Outcome Int × DalsaCamera :=
  (freshCamera 30 poolSessionFrames).open 640 480 30 1000

/-- The camera of the duplicated timestamp: it expects `1000000` and its transport delivers the
timestamp `1033333` twice, in the buffers `1` and `2`, then `1000000` and `1066666`. -/
def duplicateCamera : DalsaCamera :=
  cameraAt 1000000 30 []
    [frameAt 1033333 1, frameAt 1033333 2, frameAt 1000000 3, frameAt 1066666 4]

/-- The camera of the scan that runs around: it expects `2^64-33336` at 30 frames a second and its
transport delivers the frames of `2^64-33336` and of `5`; after the first it expects `2^64-3`. -/
def runAroundCamera : DalsaCamera :=
  cameraAt 18446744073709518280 30 [] [frameAt 18446744073709518280 0, frameAt 5 1]

/-- The camera of the wrapped sum: it expects `2^64-10` at 30 frames a second and its transport
delivers the frames of `2^64-10` and of `33323`. -/
def overflowCamera : DalsaCamera :=
  cameraAt 18446744073709551606 30 [] [frameAt 18446744073709551606 0, frameAt 33323 1]

/-! ## The `for` loop -/

theorem uint64_size_eq : UINT64_SIZE = 18446744073709551616 := by
  unfold UINT64_SIZE; norm_num

theorem uint64Sub_of_le {a b : Nat} (hba : b ≤ a) (ha : a < UINT64_SIZE) :
    uint64Sub a b = a - b := by
  unfold uint64Sub
  rw [uint64_size_eq] at *
  omega

theorem uint64AddInt_of_lt {t : Nat} {i : Int} (h0 : 0 ≤ (t : Int) + i)
    (h1 : (t : Int) + i < UINT64_SIZE) : (uint64AddInt t i : Int) = t + i := by
  unfold uint64AddInt
  rw [uint64_size_eq] at *
  omega

theorem scanFrom_found_mem (m : ReorderingMap) (hi : Nat) :
    ∀ (fuel t k : Nat), scanFrom m hi fuel t = .found k → k ∈ m ∧ k ≤ hi := by
  intro fuel
  induction fuel with
  | zero => intro t k h; simp [scanFrom] at h
  | succ n ih =>
    intro t k h
    unfold scanFrom at h
    split_ifs at h with h1 h2
    · cases h; exact ⟨h2, h1⟩
    · exact ih _ _ h

theorem scanFrom_found_ge (m : ReorderingMap) (hi : Nat) (hhi : hi + 1 < UINT64_SIZE) :
    ∀ (fuel t k : Nat), scanFrom m hi fuel t = .found k → t ≤ k := by
  intro fuel
  induction fuel with
  | zero => intro t k h; simp [scanFrom] at h
  | succ n ih =>
    intro t k h
    unfold scanFrom at h
    split_ifs at h with h1 h2
    · cases h; exact le_rfl
    · have := ih _ _ h
      rw [Nat.mod_eq_of_lt (by omega)] at this
      omega

theorem scanFrom_first (m : ReorderingMap) (hi : Nat) (hhi : hi < UINT64_SIZE) (k : Nat)
    (hk : k ∈ m) (hkhi : k ≤ hi) :
    ∀ (fuel t : Nat), t ≤ k → k - t < fuel → (∀ j, t ≤ j → j < k → j ∉ m) →
      scanFrom m hi fuel t = .found k := by
  intro fuel
  induction fuel with
  | zero => intro t _ h; omega
  | succ n ih =>
    intro t htk hfuel hmin
    unfold scanFrom
    rw [if_pos (le_trans htk hkhi)]
    by_cases htm : t ∈ m
    · rw [if_pos htm]
      have : ¬ t < k := fun hlt => hmin t le_rfl hlt htm
      have : t = k := by omega
      rw [this]
    · rw [if_neg htm]
      have hne : t ≠ k := fun h => htm (h ▸ hk)
      rw [Nat.mod_eq_of_lt (by omega)]
      exact ih (t + 1) (by omega) (by omega) (fun j h1 h2 => hmin j (by omega) h2)

/-- A scan whose window does not wrap finds only keys of the map inside the window. -/
theorem scanWindow_found_bounds {m : ReorderingMap} {e t : Nat} (h2 : 2 ≤ e)
    (hhi : e + 2 < UINT64_SIZE - 1) (h : scanWindow m e = .found t) :
    t ∈ m ∧ e - 2 ≤ t ∧ t ≤ e + 2 := by
  unfold scanWindow at h
  have hlo : uint64Sub e 2 = e - 2 := uint64Sub_of_le h2 (by omega)
  have hhi' : (e + 2) % UINT64_SIZE = e + 2 := Nat.mod_eq_of_lt (by omega)
  rw [hlo, hhi'] at h
  obtain ⟨hm, hle⟩ := scanFrom_found_mem m _ _ _ _ h
  exact ⟨hm, scanFrom_found_ge m _ (by omega) _ _ _ h, hle⟩

theorem scanFrom_of_gt (m : ReorderingMap) (hi : Nat) (fuel t k : Nat) (h : hi < t) :
    scanFrom m hi fuel t ≠ .found k := by
  cases fuel with
  | zero => simp [scanFrom]
  | succ n =>
    unfold scanFrom
    rw [if_neg (by omega)]
    simp

/-- A scan that finds a key started at or above `0`: the expected timestamp is at least `2`. -/
theorem scanWindow_found_two_le {m : ReorderingMap} {e t : Nat} (he : e < UINT64_SIZE)
    (h : scanWindow m e = .found t) : 2 ≤ e := by
  by_contra hlt
  unfold scanWindow at h
  have hlo : uint64Sub e 2 = e + UINT64_SIZE - 2 := by
    unfold uint64Sub
    rw [uint64_size_eq] at *
    omega
  have hhi : (e + 2) % UINT64_SIZE = e + 2 :=
    Nat.mod_eq_of_lt (by rw [uint64_size_eq]; omega)
  rw [hlo, hhi] at h
  exact scanFrom_of_gt m _ _ _ t (by rw [uint64_size_eq]; omega) h

/-- A scan whose bound `e + 2` is below the largest `uint64_t` finds only keys of the map inside
the window `[e - 2, e + 2]`. -/
theorem scanWindow_found_window {m : ReorderingMap} {e t : Nat}
    (hhi : e + 2 < UINT64_SIZE - 1) (h : scanWindow m e = .found t) :
    2 ≤ e ∧ t ∈ m ∧ e - 2 ≤ t ∧ t ≤ e + 2 := by
  have h2 : 2 ≤ e := scanWindow_found_two_le (by omega) h
  exact ⟨h2, scanWindow_found_bounds h2 hhi h⟩

/-- A scan whose window does not wrap finds the least key of the map inside the window. -/
theorem scanWindow_least {m : ReorderingMap} {e k : Nat} (h2 : 2 ≤ e)
    (hhi : e + 2 < UINT64_SIZE) (hk : k ∈ m) (hlo : e - 2 ≤ k) (hkhi : k ≤ e + 2)
    (hmin : ∀ j, e - 2 ≤ j → j < k → j ∉ m) :
    scanWindow m e = .found k := by
  unfold scanWindow
  have hlo' : uint64Sub e 2 = e - 2 := uint64Sub_of_le h2 (by omega)
  have hhi' : (e + 2) % UINT64_SIZE = e + 2 := Nat.mod_eq_of_lt hhi
  rw [hlo', hhi']
  refine scanFrom_first m _ hhi k hk hkhi _ _ hlo ?_ hmin
  rw [uint64_size_eq]; omega

/-! ## The `while` loop -/

theorem checkAcquired_ok {r : WaitResult} {img : GEV_BUFFER_OBJECT}
    (h : checkAcquired r = .ok img) : r = okResult img ∧ img.address ≠ none := by
  obtain ⟨status, imgGev⟩ := r
  cases imgGev with
  | none => simp [checkAcquired] at h
  | some i =>
    simp only [checkAcquired] at h
    split_ifs at h with h1 h2
    cases h
    simp only [ne_eq, not_not] at h1
    exact ⟨by simp [okResult, h1], h2⟩

theorem checkAcquired_okResult {img : GEV_BUFFER_OBJECT} (h : img.address ≠ none) :
    checkAcquired (okResult img) = .ok img := by
  simp [checkAcquired, okResult, h]

theorem nextAcquiredImage_nil {cam : DalsaCamera} (h : cam.gev.incoming = []) :
    cam.nextAcquiredImage =
      (.error acquisitionFailure,
        { cam with gev := cam.gev.call (.waitForNextImage waitTimeout) }) := by
  simp [DalsaCamera.nextAcquiredImage, Gev.waitForNextImage, h, checkAcquired, waitTimeout]

theorem nextAcquiredImage_cons {cam : DalsaCamera} {r : WaitResult} {rest : List WaitResult}
    (h : cam.gev.incoming = r :: rest) :
    cam.nextAcquiredImage =
      (checkAcquired r,
        { cam with gev := { cam.gev with
            incoming := rest, trace := cam.gev.trace ++ [.waitForNextImage r] } }) := by
  simp [DalsaCamera.nextAcquiredImage, Gev.waitForNextImage, h]

/-- What a `while` loop that ends in a match has done: it acquired the image objects `imgs` (at
least one), cached them all, and its last scan found the non-zero key `t`; no scan after fewer
acquisitions had found a non-zero key, and no scan took place before the first acquisition. -/
theorem acquireUntilMatch_matched :
    ∀ (fuel : Nat) (cam : DalsaCamera) (t : Nat) (cam' : DalsaCamera),
      acquireUntilMatch fuel cam = .matched t cam' →
      ∃ imgs rest, imgs ≠ [] ∧ (∀ img ∈ imgs, img.address ≠ none) ∧
        cam.gev.incoming = imgs.map okResult ++ rest ∧
        cam' = { cam with
          _reorderingMap := cacheAll cam._reorderingMap imgs,
          gev := { cam.gev with incoming := rest, trace := cam.gev.trace ++ waitCalls imgs } } ∧
        scanWindow (cacheAll cam._reorderingMap imgs) cam._tNextFrameMicroseconds = .found t ∧
        t ≠ 0 ∧
        (∀ k, 0 < k → k < imgs.length → ∀ t',
          scanWindow (cacheAll cam._reorderingMap (imgs.take k)) cam._tNextFrameMicroseconds =
            .found t' → t' = 0) := by
  intro fuel
  induction fuel with
  | zero => intro cam t cam' h; simp [acquireUntilMatch] at h
  | succ n ih =>
    intro cam t cam' h
    unfold acquireUntilMatch at h
    cases hin : cam.gev.incoming with
    | nil => rw [nextAcquiredImage_nil hin] at h; simp at h
    | cons r rest =>
      rw [nextAcquiredImage_cons hin] at h
      cases hc : checkAcquired r with
      | error e => rw [hc] at h; simp at h
      | ok img =>
        rw [hc] at h
        obtain ⟨hr, haddr⟩ := checkAcquired_ok hc
        subst hr
        simp only at h
        have hmiss : (∀ t', scanWindow (cam._reorderingMap.insert img.timestamp img)
              cam._tNextFrameMicroseconds = .found t' → t' = 0) →
            acquireUntilMatch n
              { cam with
                _reorderingMap := cam._reorderingMap.insert img.timestamp img,
                gev := { cam.gev with
                  incoming := rest,
                  trace := cam.gev.trace ++ [.waitForNextImage (okResult img)] } } =
              .matched t cam' →
            ∃ imgs rest', imgs ≠ [] ∧ (∀ img ∈ imgs, img.address ≠ none) ∧
              okResult img :: rest = imgs.map okResult ++ rest' ∧
              cam' = { cam with
                _reorderingMap := cacheAll cam._reorderingMap imgs,
                gev := { cam.gev with
                  incoming := rest', trace := cam.gev.trace ++ waitCalls imgs } } ∧
              scanWindow (cacheAll cam._reorderingMap imgs) cam._tNextFrameMicroseconds =
                .found t ∧
              t ≠ 0 ∧
              (∀ k, 0 < k → k < imgs.length → ∀ t',
                scanWindow (cacheAll cam._reorderingMap (imgs.take k))
                  cam._tNextFrameMicroseconds = .found t' → t' = 0) := by
          intro hfirst hrec
          obtain ⟨imgs, rest', h1, h2, h3, h4, h5, h6, h7⟩ := ih _ _ _ hrec
          refine ⟨img :: imgs, rest', by simp, ?_, ?_, ?_, ?_, h6, ?_⟩
          · intro i hi
            rcases List.mem_cons.1 hi with rfl | hi
            · exact haddr
            · exact h2 i hi
          · simp at h3; simp [h3]
          · rw [h4]; simp [cacheAll, waitCalls]
          · simpa [cacheAll] using h5
          · intro k hk0 hklen t' hfound
            cases k with
            | zero => omega
            | succ j =>
              cases j with
              | zero => exact hfirst t' (by simpa [cacheAll] using hfound)
              | succ i =>
                simp only [List.length_cons] at hklen
                exact h7 (i + 1) (by omega) (by omega) t' (by simpa [cacheAll] using hfound)
        split at h
        · simp at h
        · next k hscan =>
          split_ifs at h with hk
          · cases h
            refine ⟨[img], rest, by simp, by simpa using haddr, by simp, ?_, ?_, hk, ?_⟩
            · simp [cacheAll, waitCalls]
            · simpa [cacheAll] using hscan
            · intro k hk0 hklen
              simp only [List.length_singleton] at hklen
              omega
          · refine hmiss ?_ h
            intro t' ht'
            rw [hscan] at ht'
            cases ht'
            simpa using hk
        · next hscan =>
          refine hmiss ?_ h
          intro t' ht'
          rw [hscan] at ht'
          cases ht'

/-! ## `getNextImage` -/

/-- Every call of `getNextImage` that stores an image returns `0` and is described by
`FrameReleased`. -/
theorem getNextImage_returned {cam : DalsaCamera} {code : Int} {mat : Mat}
    (h : cam.getNextImage.1 = .returned (code, some mat)) :
    code = 0 ∧ mat.rows = cam._height ∧ mat.cols = cam._width ∧
      ∃ imgs rest t, FrameReleased cam imgs rest t mat.frame cam.getNextImage.2 := by
  unfold DalsaCamera.getNextImage at h ⊢
  split_ifs at h ⊢ with hopen
  · simp at h
  · revert h
    cases hloop : acquireUntilMatch (cam.gev.incoming.length + 1) cam with
    | spins => intro h; simp at h
    | thrown w c => intro h; simp at h
    | matched t cam1 =>
      obtain ⟨imgs, rest, h1, h2, h3, h4, h5, h6, h7⟩ :=
        acquireUntilMatch_matched _ _ _ _ hloop
      simp only
      cases hlook : AList.lookup t cam1._reorderingMap with
      | none => intro h; simp at h
      | some imgGev =>
        intro h
        simp only [Outcome.returned.injEq, Prod.mk.injEq, Option.some.injEq] at h ⊢
        obtain ⟨hcode, hmat⟩ := h
        subst hmat
        subst h4
        refine ⟨hcode.symm, rfl, rfl, imgs, rest, t, ?_⟩
        exact
          { opened := hopen, acquired := h1, valid := h2, incoming := h3, scan := h5,
            nonzero := h6, first := h7, stored := hlook
            after := by
              simp [DalsaCamera.logImg, DalsaCamera.periodMicroseconds, Gev.call,
                DalsaCamera.height, DalsaCamera.width, List.append_assoc] }

/-- A call on an opened camera whose first acquisition succeeds and whose first scan finds a
non-zero key hands out the frame stored under that key. -/
theorem getNextImage_first_check {cam : DalsaCamera} {img : GEV_BUFFER_OBJECT}
    {rest : List WaitResult} {t : Nat} (hopen : cam.isOpened ≠ 0)
    (hin : cam.gev.incoming = okResult img :: rest) (haddr : img.address ≠ none)
    (hscan : scanWindow (cam._reorderingMap.insert img.timestamp img)
      cam._tNextFrameMicroseconds = .found t) (ht0 : t ≠ 0) :
    ∃ frame, (cam._reorderingMap.insert img.timestamp img).lookup t = some frame ∧
      cam.getNextImage.1 =
        .returned (0, some { rows := cam._height, cols := cam._width, frame := frame }) := by
  have hmem : t ∈ cam._reorderingMap.insert img.timestamp img := by
    unfold scanWindow at hscan
    exact (scanFrom_found_mem _ _ _ _ _ hscan).1
  obtain ⟨frame, hframe⟩ := Option.isSome_iff_exists.1 (AList.lookup_isSome.2 hmem)
  refine ⟨frame, hframe, ?_⟩
  unfold DalsaCamera.getNextImage
  rw [if_neg hopen, hin, List.length_cons]
  unfold acquireUntilMatch
  rw [nextAcquiredImage_cons hin, checkAcquired_okResult haddr]
  simp only
  rw [hscan]
  simp only [ht0, ne_eq, not_false_eq_true, if_true]
  rw [hframe]
  simp [DalsaCamera.logImg, DalsaCamera.height, DalsaCamera.width]

/-- The frame `getNextImage` looks up after the loop is always there: the branch of a missing
entry is never taken. -/
theorem getNextImage_entry_present (cam : DalsaCamera) :
    cam.getNextImage.1 ≠ .thrown "null image object" := by
  unfold DalsaCamera.getNextImage
  split_ifs with hopen
  · simp
  · cases hloop : acquireUntilMatch (cam.gev.incoming.length + 1) cam with
    | spins => simp
    | thrown w c =>
      simp only [ne_eq, Outcome.thrown.injEq]
      intro hw
      subst hw
      have : ∀ (fuel : Nat) (cam c : DalsaCamera) (w : String),
          acquireUntilMatch fuel cam = .thrown w c → w = acquisitionFailure := by
        intro fuel
        induction fuel with
        | zero => intro cam c w h; simp [acquireUntilMatch] at h
        | succ n ih =>
          intro cam c w h
          unfold acquireUntilMatch at h
          cases hin : cam.gev.incoming with
          | nil =>
            rw [nextAcquiredImage_nil hin] at h
            simp only [LoopResult.thrown.injEq] at h
            exact h.1.symm
          | cons r rest =>
            rw [nextAcquiredImage_cons hin] at h
            cases hc : checkAcquired r with
            | error e =>
              rw [hc] at h
              simp only [LoopResult.thrown.injEq] at h
              rw [← h.1]
              obtain ⟨status, imgGev⟩ := r
              cases imgGev with
              | none => simp [checkAcquired] at hc; exact hc.symm
              | some i =>
                simp only [checkAcquired] at hc
                split_ifs at hc <;> simp at hc <;> exact hc.symm
            | ok img =>
              rw [hc] at h
              simp only at h
              split at h
              · cases h
              · split_ifs at h
                · exact ih _ _ _ h
              · exact ih _ _ _ h
      have hw := this _ _ _ _ hloop
      simp [acquisitionFailure] at hw
    | matched t cam1 =>
      obtain ⟨imgs, rest, _, _, _, h4, h5, _⟩ := acquireUntilMatch_matched _ _ _ _ hloop
      have hmem : t ∈ cam1._reorderingMap := by
        rw [h4]
        unfold scanWindow at h5
        exact (scanFrom_found_mem _ _ _ _ _ h5).1
      obtain ⟨frame, hframe⟩ := Option.isSome_iff_exists.1 (AList.lookup_isSome.2 hmem)
      simp only [hframe]
      simp

theorem lookup_cacheAll_of_ne (imgs : List GEV_BUFFER_OBJECT) :
    ∀ (m : ReorderingMap) (k : Nat), (∀ img ∈ imgs, img.timestamp ≠ k) →
      (cacheAll m imgs).lookup k = m.lookup k := by
  induction imgs with
  | nil => intro m k _; rfl
  | cons img imgs ih =>
    intro m k hne
    have hstep : cacheAll m (img :: imgs) = cacheAll (m.insert img.timestamp img) imgs := rfl
    rw [hstep, ih _ k (fun i hi => hne i (List.mem_cons_of_mem _ hi))]
    exact AList.lookup_insert_ne (fun h => hne img (List.mem_cons_self _ _) h.symm)

/-! ## The size of the map -/

theorem mapSize_insert_of_not_mem {m : ReorderingMap} {k : Nat} {v : GEV_BUFFER_OBJECT}
    (h : k ∉ m) : mapSize (m.insert k v) = mapSize m + 1 := by
  unfold mapSize
  rw [AList.keys_insert, List.erase_of_not_mem (fun hk => h (AList.mem_keys.2 hk))]
  simp

theorem mapSize_erase_of_mem {m : ReorderingMap} {k : Nat} (h : k ∈ m) :
    mapSize (m.erase k) + 1 = mapSize m := by
  unfold mapSize
  rw [AList.keys_erase, List.length_erase_of_mem (AList.mem_keys.1 h)]
  have : 0 < m.keys.length := List.length_pos_of_mem (AList.mem_keys.1 h)
  omega

theorem mapSize_cacheAll (imgs : List GEV_BUFFER_OBJECT) :
    ∀ (m : ReorderingMap), (imgs.map GEV_BUFFER_OBJECT.timestamp).Nodup →
      (∀ img ∈ imgs, img.timestamp ∉ m) →
      mapSize (cacheAll m imgs) = mapSize m + imgs.length := by
  induction imgs with
  | nil => intro m _ _; simp [cacheAll]
  | cons img imgs ih =>
    intro m hnd hnew
    rw [List.map_cons, List.nodup_cons] at hnd
    have hstep : cacheAll m (img :: imgs) = cacheAll (m.insert img.timestamp img) imgs := rfl
    rw [hstep, ih _ hnd.2, mapSize_insert_of_not_mem (hnew img (List.mem_cons_self _ _))]
    · simp only [List.length_cons]; omega
    · intro i hi hmem
      rcases (AList.mem_insert _).1 hmem with heq | hold
      · exact hnd.1 (heq ▸ List.mem_map_of_mem _ hi)
      · exact hnew i (List.mem_cons_of_mem _ hi) hold

/-! ## Frames are stored under their timestamps -/

theorem keyed_empty : Keyed (∅ : ReorderingMap) := by
  intro k img h
  simp at h

theorem keyed_insert {m : ReorderingMap} (hm : Keyed m) (img : GEV_BUFFER_OBJECT) :
    Keyed (m.insert img.timestamp img) := by
  intro k i h
  by_cases hk : k = img.timestamp
  · subst hk
    rw [AList.lookup_insert] at h
    cases h
    rfl
  · rw [AList.lookup_insert_ne hk] at h
    exact hm k i h

theorem keyed_cacheAll (imgs : List GEV_BUFFER_OBJECT) :
    ∀ (m : ReorderingMap), Keyed m → Keyed (cacheAll m imgs) := by
  induction imgs with
  | nil => intro m hm; exact hm
  | cons img imgs ih => intro m hm; exact ih _ (keyed_insert hm img)

theorem keyed_erase {m : ReorderingMap} (hm : Keyed m) (t : Nat) : Keyed (m.erase t) := by
  intro k i h
  by_cases hk : k = t
  · subst hk
    rw [AList.lookup_erase] at h
    cases h
  · rw [AList.lookup_erase_ne hk] at h
    exact hm k i h

/-- A successful call keeps the map keyed, and the frame it returns has the matched timestamp. -/
theorem FrameReleased.keyed {cam cam' : DalsaCamera} {imgs : List GEV_BUFFER_OBJECT}
    {rest : List WaitResult} {t : Nat} {imgGev : GEV_BUFFER_OBJECT}
    (hrel : FrameReleased cam imgs rest t imgGev cam') (hm : Keyed cam._reorderingMap) :
    imgGev.timestamp = t ∧ Keyed cam'._reorderingMap := by
  refine ⟨keyed_cacheAll imgs _ hm t imgGev hrel.stored, ?_⟩
  rw [hrel.after]
  exact keyed_erase (keyed_cacheAll imgs _ hm) t

/-! ## Sessions on a grid of timestamps -/

theorem mem_cacheAll (imgs : List GEV_BUFFER_OBJECT) :
    ∀ (m : ReorderingMap) (k : Nat), k ∈ cacheAll m imgs →
      k ∈ m ∨ ∃ img ∈ imgs, img.timestamp = k := by
  induction imgs with
  | nil => intro m k h; exact Or.inl h
  | cons img imgs ih =>
    intro m k h
    rcases ih _ k h with hmem | ⟨i, hi, hk⟩
    · rcases (AList.mem_insert _).1 hmem with heq | hold
      · exact Or.inr ⟨img, List.mem_cons_self _ _, heq.symm⟩
      · exact Or.inl hold
    · exact Or.inr ⟨i, List.mem_cons_of_mem _ hi, hk⟩

theorem onGrid_shift {e p k : Nat} (h : OnGrid e p k) : OnGrid (e + p) p k := by
  obtain ⟨i, hi⟩ := h
  refine ⟨i - 1, ?_⟩
  push_cast
  rw [hi]
  ring

/-- A key on the grid that is within `2` of the slot `e` is `e`, for a period of at least `3`. -/
theorem onGrid_near {e p t : Nat} (hp : 3 ≤ p) (h : OnGrid e p t) (hlo : e - 2 ≤ t)
    (hhi : t ≤ e + 2) : t = e := by
  obtain ⟨i, hi⟩ := h
  have hi0 : i = 0 := by
    rcases lt_trichotomy i 0 with hneg | hzero | hpos
    · have : i * (p : Int) ≤ -1 * p := by
        apply mul_le_mul_of_nonneg_right (by omega) (by omega)
      omega
    · exact hzero
    · have : 1 * (p : Int) ≤ i * p := by
        apply mul_le_mul_of_nonneg_right (by omega) (by omega)
      omega
  rw [hi0] at hi
  omega

theorem getNextImages_succ {n : Nat} {cam cam' : DalsaCamera} {mats : List Mat}
    (h : cam.getNextImages (n + 1) = some (mats, cam')) :
    ∃ code mat rest, mats = mat :: rest ∧
      cam.getNextImage.1 = .returned (code, some mat) ∧
      cam.getNextImage.2.getNextImages n = some (rest, cam') := by
  unfold DalsaCamera.getNextImages at h
  split at h
  · next code mat cam1 hcall =>
    split at h
    · next rest cam2 hrest =>
      simp only [Option.some.injEq, Prod.mk.injEq] at h
      refine ⟨code, mat, rest, h.1.symm, ?_, ?_⟩
      · rw [hcall]
      · rw [hcall, hrest, h.2]
    · cases h
  · cases h

/-- On a grid of period at least `3` every call of a session returns the slot the camera expects
and leaves the camera expecting the next slot. -/
theorem getNextImages_on_grid (p : Nat) (hp3 : 3 ≤ p) :
    ∀ (n : Nat) (cam cam' : DalsaCamera) (mats : List Mat),
      cam.periodMicroseconds = p → 2 ≤ cam._tNextFrameMicroseconds →
      cam._tNextFrameMicroseconds + n * p + 2 < UINT64_SIZE →
      Keyed cam._reorderingMap →
      (∀ k, k ∈ cam._reorderingMap → OnGrid cam._tNextFrameMicroseconds p k) →
      (∀ img, okResult img ∈ cam.gev.incoming →
        OnGrid cam._tNextFrameMicroseconds p img.timestamp) →
      cam.getNextImages n = some (mats, cam') →
      mats.map (fun m => m.frame.timestamp) =
        (List.range n).map (fun j => cam._tNextFrameMicroseconds + j * p) := by
  intro n
  induction n with
  | zero =>
    intro cam cam' mats _ _ _ _ _ _ hrun
    simp only [DalsaCamera.getNextImages, Option.some.injEq, Prod.mk.injEq] at hrun
    rw [← hrun.1]
    rfl
  | succ n ih =>
    intro cam cam' mats hp he2 hfit hkeyed hmap hin hrun
    obtain ⟨code, mat, rest, hmats, hcall, hrest⟩ := getNextImages_succ hrun
    obtain ⟨_, _, _, imgs, left, t, hrel⟩ := getNextImage_returned hcall
    have hsize := uint64_size_eq
    have hnp : (n + 1) * p = n * p + p := Nat.succ_mul n p
    obtain ⟨hmem, hlo, hhi⟩ :=
      scanWindow_found_bounds he2 (by omega) hrel.scan
    have hgridAll : ∀ k, k ∈ cacheAll cam._reorderingMap imgs →
        OnGrid cam._tNextFrameMicroseconds p k := by
      intro k hk
      rcases mem_cacheAll imgs _ k hk with hold | ⟨img, himg, hts⟩
      · exact hmap k hold
      · rw [← hts]
        apply hin
        rw [hrel.incoming]
        exact List.mem_append_left _ (List.mem_map_of_mem _ himg)
    have hte : t = cam._tNextFrameMicroseconds := onGrid_near hp3 (hgridAll t hmem) hlo hhi
    obtain ⟨hts, hkeyed1⟩ := hrel.keyed hkeyed
    have hperiod : cam.getNextImage.2.periodMicroseconds = p := by
      rw [hrel.after]; exact hp
    have hnext : cam.getNextImage.2._tNextFrameMicroseconds =
        cam._tNextFrameMicroseconds + p := by
      have h1 : (cam.getNextImage.2._tNextFrameMicroseconds : Int) =
          t + cam.periodMicroseconds := by
        rw [hrel.after]
        exact uint64AddInt_of_lt (by omega) (by omega)
      rw [hp, hte] at h1
      exact_mod_cast h1
    have hmap1 : ∀ k, k ∈ cam.getNextImage.2._reorderingMap →
        OnGrid cam.getNextImage.2._tNextFrameMicroseconds p k := by
      intro k hk
      rw [hnext]
      rw [hrel.after] at hk
      exact onGrid_shift (hgridAll k (AList.mem_erase.1 hk).2)
    have hin1 : ∀ img, okResult img ∈ cam.getNextImage.2.gev.incoming →
        OnGrid cam.getNextImage.2._tNextFrameMicroseconds p img.timestamp := by
      intro img himg
      rw [hnext]
      rw [hrel.after] at himg
      apply onGrid_shift
      apply hin
      rw [hrel.incoming]
      exact List.mem_append_right _ himg
    have hih := ih cam.getNextImage.2 cam' rest hperiod (by omega) (by omega) hkeyed1 hmap1
      hin1 hrest
    rw [hmats, List.map_cons, hih, hts, hte, hnext, List.range_succ_eq_map, List.map_cons,
      List.map_map]
    congr 1
    · simp
    · apply List.map_congr_left
      intro j _
      simp only [Function.comp]
      rw [Nat.succ_mul]
      omega

/-! ## The fuel of the two loops is enough -/

/-- A scan that is still running after `fuel` iterations has found every value it tried within
the bound `hi` and outside the map. -/
theorem scanFrom_spins_tried (m : ReorderingMap) (hi : Nat) :
    ∀ (fuel t : Nat), t < UINT64_SIZE → scanFrom m hi fuel t = .spins →
      ∀ j, j < fuel → (t + j) % UINT64_SIZE ≤ hi ∧ (t + j) % UINT64_SIZE ∉ m := by
  intro fuel
  induction fuel with
  | zero => intro t _ _ j hj; omega
  | succ n ih =>
    intro t ht h j hj
    unfold scanFrom at h
    split_ifs at h with h1 h2
    have hsize := uint64_size_eq
    cases j with
    | zero =>
      rw [Nat.add_zero, Nat.mod_eq_of_lt ht]
      exact ⟨h1, h2⟩
    | succ j =>
      have := ih ((t + 1) % UINT64_SIZE) (Nat.mod_lt _ (by omega)) h j (by omega)
      rw [Nat.mod_add_mod, show t + 1 + j = t + (j + 1) by omega] at this
      exact this

/-- Once every value of `t` is within the bound and outside the map the scan never ends. -/
theorem scanFrom_spins_of_all (m : ReorderingMap) (hi : Nat)
    (hall : ∀ u, u < UINT64_SIZE → u ≤ hi ∧ u ∉ m) :
    ∀ (fuel t : Nat), t < UINT64_SIZE → scanFrom m hi fuel t = .spins := by
  intro fuel
  induction fuel with
  | zero => intro t _; rfl
  | succ n ih =>
    intro t ht
    have hsize := uint64_size_eq
    unfold scanFrom
    rw [if_pos (hall t ht).1, if_neg (hall t ht).2]
    exact ih _ (Nat.mod_lt _ (by omega))

/-- The `2 ^ 64` iterations allowed to the `for` loop are enough: a scan still running after them
is still running after any number of iterations. -/
theorem scanFrom_spins_forever (m : ReorderingMap) (hi t : Nat) (ht : t < UINT64_SIZE)
    (h : scanFrom m hi UINT64_SIZE t = .spins) (fuel : Nat) :
    scanFrom m hi fuel t = .spins := by
  have hsize := uint64_size_eq
  refine scanFrom_spins_of_all m hi ?_ fuel t ht
  intro u hu
  have := scanFrom_spins_tried m hi UINT64_SIZE t ht h ((u + UINT64_SIZE - t) % UINT64_SIZE)
    (Nat.mod_lt _ (by omega))
  have hu' : (t + (u + UINT64_SIZE - t) % UINT64_SIZE) % UINT64_SIZE = u := by
    rw [hsize] at hu ht ⊢
    omega
  rw [hu'] at this
  exact this

/-- The iterations allowed to the `while` loop by `getNextImage` are enough: with more of them the
loop ends the same way. -/
theorem acquireUntilMatch_fuel :
    ∀ (fuel : Nat) (cam : DalsaCamera), cam.gev.incoming.length < fuel →
      acquireUntilMatch fuel cam = acquireUntilMatch (cam.gev.incoming.length + 1) cam := by
  intro fuel
  induction fuel with
  | zero => intro cam h; omega
  | succ n ih =>
    intro cam hlen
    cases hin : cam.gev.incoming with
    | nil =>
      unfold acquireUntilMatch
      rw [nextAcquiredImage_nil hin]
    | cons r rest =>
      rw [hin] at hlen
      simp only [List.length_cons] at hlen ⊢
      rw [acquireUntilMatch, acquireUntilMatch, nextAcquiredImage_cons hin]
      cases hc : checkAcquired r with
      | error e => rfl
      | ok img =>
        simp only
        have hrec := ih { cam with
          _reorderingMap := cam._reorderingMap.insert img.timestamp img,
          gev := { cam.gev with
            incoming := rest, trace := cam.gev.trace ++ [.waitForNextImage r] } }
          (by simp only; omega)
        simp only at hrec
        rw [hrec]

/-- The `while` loop has no memory: when the first scan of a call selects nothing (no key of the
window, or the key `0`), the call ends as the call entered in the state after the first
acquisition does.  So every match check of a call is the first match check of such a call. -/
theorem getNextImage_after_miss {cam : DalsaCamera} {img : GEV_BUFFER_OBJECT}
    {rest : List WaitResult} (hopen : cam.isOpened ≠ 0)
    (hin : cam.gev.incoming = okResult img :: rest) (haddr : img.address ≠ none)
    (hscan : scanWindow (cam._reorderingMap.insert img.timestamp img)
        cam._tNextFrameMicroseconds = .absent ∨
      scanWindow (cam._reorderingMap.insert img.timestamp img)
        cam._tNextFrameMicroseconds = .found 0) :
    cam.getNextImage.1 =
      ({ cam with
        _reorderingMap := cam._reorderingMap.insert img.timestamp img
        gev := { cam.gev with
          incoming := rest
          trace := cam.gev.trace ++ [.waitForNextImage (okResult img)] } }
        : DalsaCamera).getNextImage.1 := by
  have hstep : acquireUntilMatch (cam.gev.incoming.length + 1) cam =
      acquireUntilMatch (rest.length + 1)
        { cam with
          _reorderingMap := cam._reorderingMap.insert img.timestamp img
          gev := { cam.gev with
            incoming := rest
            trace := cam.gev.trace ++ [.waitForNextImage (okResult img)] } } := by
    rw [hin, List.length_cons, acquireUntilMatch, nextAcquiredImage_cons hin,
      checkAcquired_okResult haddr]
    simp only
    rcases hscan with h | h <;> simp [h]
  unfold DalsaCamera.getNextImage
  simp only [DalsaCamera.isOpened] at hopen ⊢
  rw [if_neg hopen, if_neg hopen, hstep]
  cases acquireUntilMatch (rest.length + 1)
      { cam with
        _reorderingMap := cam._reorderingMap.insert img.timestamp img
        gev := { cam.gev with
          incoming := rest
          trace := cam.gev.trace ++ [.waitForNextImage (okResult img)] } } with
  | spins => rfl
  | thrown w c => rfl
  | matched t c => rfl

/-! ## The claims -/

/-- C1, as stated, fails at the ends of the `uint64_t` range.  (1) A camera opened at period `1`
on a first frame of timestamp `0` expects `1`; it acquires the frame of timestamp
`2 = expected+1`, and in `uint64_t` the scan starts at `1-2 = 2^64-1` and stops at `3`, so it
visits nothing, no frame is selected and the call ends in the acquisition failure of the next
acquisition.  The same happens to a camera that expects `1` when at its match check the map
holds both keys `0 = expected-1` and `2 = expected+1`.  (2) The camera expects `2` and
the map holds the keys `0` and `1`; the scan stops at the key `0`, which leaves `next_timestamp`
zero, so the `while` loop goes on and no frame is selected either.  (3) The camera expects
`2^64-2` and the map holds `2^64-3 = expected-1`; the scan would stop at `expected+2 = 0`, so it
visits nothing. -/
theorem match_check_wrapped_window_selects_nothing :
    (earlyCamera._tNextFrameMicroseconds = 1 ∧
      2 ∈ cacheAll earlyCamera._reorderingMap [frameAt 2 1] ∧
      scanWindow (cacheAll earlyCamera._reorderingMap [frameAt 2 1])
        earlyCamera._tNextFrameMicroseconds = .absent ∧
      earlyCamera.getNextImage.1 = .thrown acquisitionFailure) ∧
    ((0 ∈ cacheAll wrappedWindowCamera._reorderingMap [frameAt 0 1] ∧
        2 ∈ cacheAll wrappedWindowCamera._reorderingMap [frameAt 0 1]) ∧
      scanWindow (cacheAll wrappedWindowCamera._reorderingMap [frameAt 0 1])
        wrappedWindowCamera._tNextFrameMicroseconds = .absent ∧
      wrappedWindowCamera.getNextImage.1 = .thrown acquisitionFailure) ∧
    ((0 ∈ cacheAll zeroKeyCamera._reorderingMap [frameAt 0 1] ∧
        1 ∈ cacheAll zeroKeyCamera._reorderingMap [frameAt 0 1]) ∧
      scanWindow (cacheAll zeroKeyCamera._reorderingMap [frameAt 0 1])
        zeroKeyCamera._tNextFrameMicroseconds = .found 0 ∧
      zeroKeyCamera.getNextImage.1 = .thrown acquisitionFailure) ∧
    (18446744073709551613 ∈
        cacheAll upperWrapCamera._reorderingMap [frameAt 18446744073709551613 0] ∧
      scanWindow (cacheAll upperWrapCamera._reorderingMap [frameAt 18446744073709551613 0])
        upperWrapCamera._tNextFrameMicroseconds = .absent ∧
      upperWrapCamera.getNextImage.1 = .thrown acquisitionFailure) := by
  decide!

/-- C1 (amended): at the match check that follows an acquisition, when the window
`[expected-2, expected+2]` does not wrap (`2 ≤ expected`, `expected+2 < 2^64`) and the smallest
key `t` of the map inside the window is not `0`, the scan selects `t` (the first present key of
the ascending scan, whether or not it is the closest to `expected`) and the call returns the
frame stored under `t`.  The check is the first one of the call; a later check of a call is the
first check of the call entered in the state that iteration starts from, which ends the same
way (`getNextImage_after_miss`). -/
theorem match_check_selects_smallest_key (cam : DalsaCamera) (img : GEV_BUFFER_OBJECT)
    (rest : List WaitResult) (t : Nat) (hopen : cam.isOpened ≠ 0)
    (hin : cam.gev.incoming = okResult img :: rest) (haddr : img.address ≠ none)
    (h2 : 2 ≤ cam._tNextFrameMicroseconds)
    (hhi : cam._tNextFrameMicroseconds + 2 < UINT64_SIZE)
    (ht : t ∈ cam._reorderingMap.insert img.timestamp img)
    (hlo : cam._tNextFrameMicroseconds - 2 ≤ t) (hthi : t ≤ cam._tNextFrameMicroseconds + 2)
    (hmin : ∀ j, cam._tNextFrameMicroseconds - 2 ≤ j → j < t →
      j ∉ cam._reorderingMap.insert img.timestamp img)
    (ht0 : t ≠ 0) :
    scanWindow (cam._reorderingMap.insert img.timestamp img) cam._tNextFrameMicroseconds =
        .found t ∧
      ∃ frame, (cam._reorderingMap.insert img.timestamp img).lookup t = some frame ∧
        cam.getNextImage.1 =
          .returned (0, some { rows := cam._height, cols := cam._width, frame := frame }) := by
  have hscan := scanWindow_least h2 hhi ht hlo hthi hmin
  exact ⟨hscan, getNextImage_first_check hopen hin haddr hscan ht0⟩

/-- C1 at a concrete tie: the camera expects `1000000`, holds the frame of `1000001` and acquires
the frame of `999999`; the call returns the frame of `999999 = expected-1`. -/
theorem match_check_selects_smallest_key_witness :
    scanWindow (tieCamera._reorderingMap.insert (frameAt 999999 1).timestamp (frameAt 999999 1))
        tieCamera._tNextFrameMicroseconds = .found 999999 ∧
      ∃ frame, (tieCamera._reorderingMap.insert (frameAt 999999 1).timestamp
          (frameAt 999999 1)).lookup 999999 = some frame ∧
        tieCamera.getNextImage.1 =
          .returned (0, some (Mat.mk tieCamera._height tieCamera._width frame)) :=
  match_check_selects_smallest_key tieCamera (frameAt 999999 1) [] 999999 (by decide!) rfl
    (by decide!) (by decide!) (by decide!) (by decide!) (by decide!) (by decide!)
    (fun j h1 h3 => by
      have hj : j = 999998 := by
        have : tieCamera._tNextFrameMicroseconds = 1000000 := rfl
        omega
      subst hj
      decide!)
    (by decide!)

/-- C2: a successful call of `getNextImage` (it acquired the image objects `imgs` and its scan
matched at the timestamp `t`) returns the frame stored under the key `t`; afterwards `t` is no
key of the pending map, every other key holds what it held at the match (the entries cached
during the call included), so what it held before the call unless the call acquired that
timestamp, and the expected timestamp is `t + period` in `uint64_t` arithmetic, which is the
number `t + period` whenever that fits 64 bits. -/
theorem getNextImage_match_effects (cam : DalsaCamera) (code : Int) (mat : Mat)
    (h : cam.getNextImage.1 = .returned (code, some mat)) :
    ∃ imgs rest t, cam.gev.incoming = imgs.map okResult ++ rest ∧
      scanWindow (cacheAll cam._reorderingMap imgs) cam._tNextFrameMicroseconds = .found t ∧
      (cacheAll cam._reorderingMap imgs).lookup t = some mat.frame ∧
      t ∉ cam.getNextImage.2._reorderingMap ∧
      (∀ k, k ≠ t → cam.getNextImage.2._reorderingMap.lookup k =
        (cacheAll cam._reorderingMap imgs).lookup k) ∧
      (∀ k, k ≠ t → (∀ img ∈ imgs, img.timestamp ≠ k) →
        cam.getNextImage.2._reorderingMap.lookup k = cam._reorderingMap.lookup k) ∧
      cam.getNextImage.2._tNextFrameMicroseconds = uint64AddInt t cam.periodMicroseconds ∧
      (0 ≤ (t : Int) + cam.periodMicroseconds →
        (t : Int) + cam.periodMicroseconds < UINT64_SIZE →
        (cam.getNextImage.2._tNextFrameMicroseconds : Int) = t + cam.periodMicroseconds) := by
  obtain ⟨_, _, _, imgs, rest, t, hrel⟩ := getNextImage_returned h
  refine ⟨imgs, rest, t, hrel.incoming, hrel.scan, hrel.stored, ?_, ?_, ?_, ?_, ?_⟩
  · rw [hrel.after]
    exact fun hmem => (AList.mem_erase.1 hmem).1 rfl
  · intro k hk
    rw [hrel.after]
    exact AList.lookup_erase_ne hk
  · intro k hk hnew
    rw [hrel.after]
    exact (AList.lookup_erase_ne hk).trans (lookup_cacheAll_of_ne imgs _ k hnew)
  · rw [hrel.after]
  · intro h0 h1
    rw [hrel.after]
    exact uint64AddInt_of_lt h0 h1

/-- C2 at the tie camera: the call returns the frame of `999999`, and the facts of C2 hold of
it. -/
theorem getNextImage_match_effects_witness :
    tieCamera.getNextImage.1 = .returned (0, some (Mat.mk 0 0 (frameAt 999999 1))) ∧
    ∃ imgs rest t, tieCamera.gev.incoming = imgs.map okResult ++ rest ∧
      scanWindow (cacheAll tieCamera._reorderingMap imgs) tieCamera._tNextFrameMicroseconds =
        .found t ∧
      (cacheAll tieCamera._reorderingMap imgs).lookup t = some (frameAt 999999 1) ∧
      t ∉ tieCamera.getNextImage.2._reorderingMap ∧
      (∀ k, k ≠ t → tieCamera.getNextImage.2._reorderingMap.lookup k =
        (cacheAll tieCamera._reorderingMap imgs).lookup k) ∧
      (∀ k, k ≠ t → (∀ img ∈ imgs, img.timestamp ≠ k) →
        tieCamera.getNextImage.2._reorderingMap.lookup k = tieCamera._reorderingMap.lookup k) ∧
      tieCamera.getNextImage.2._tNextFrameMicroseconds =
        uint64AddInt t tieCamera.periodMicroseconds ∧
      (0 ≤ (t : Int) + tieCamera.periodMicroseconds →
        (t : Int) + tieCamera.periodMicroseconds < UINT64_SIZE →
        (tieCamera.getNextImage.2._tNextFrameMicroseconds : Int) =
          t + tieCamera.periodMicroseconds) :=
  ⟨by decide!,
    getNextImage_match_effects tieCamera 0 (Mat.mk 0 0 (frameAt 999999 1)) (by decide!)⟩

/-- C10: a successful call of `getNextImage` has acquired at least one image object before the
scan that matched, whatever the pending map held.  Its transport was not empty; the image objects
`imgs` it took from the transport (at least one, recorded in the trace) were all cached before
the scan that selected the key `t`; the frame returned is the one stored under `t` in the map as
it is after these acquisitions, and the map afterwards is that map without `t`; no scan after
fewer (but at least one) acquisitions had selected a non-zero key, so `imgs` is as short as it
can be, and no scan of the map as it was before the first acquisition decides the call.  When the
acquired timestamps are distinct from each other and from the keys already held, the size of the
pending map after the call is its size before plus the number of acquisitions minus one, so it
has not decreased. -/
theorem getNextImage_acquires_first (cam : DalsaCamera) (code : Int) (mat : Mat)
    (h : cam.getNextImage.1 = .returned (code, some mat)) :
    cam.gev.incoming ≠ [] ∧
    ∃ imgs t, 1 ≤ imgs.length ∧
      cam.gev.incoming = imgs.map okResult ++ cam.getNextImage.2.gev.incoming ∧
      cam.getNextImage.2.gev.trace =
        cam.gev.trace ++ waitCalls imgs ++ [.releaseImage mat.frame] ∧
      scanWindow (cacheAll cam._reorderingMap imgs) cam._tNextFrameMicroseconds = .found t ∧
      t ≠ 0 ∧
      (cacheAll cam._reorderingMap imgs).lookup t = some mat.frame ∧
      cam.getNextImage.2._reorderingMap = (cacheAll cam._reorderingMap imgs).erase t ∧
      (∀ k, 0 < k → k < imgs.length → ∀ t',
        scanWindow (cacheAll cam._reorderingMap (imgs.take k)) cam._tNextFrameMicroseconds =
          .found t' → t' = 0) ∧
      ((imgs.map GEV_BUFFER_OBJECT.timestamp).Nodup →
        (∀ img ∈ imgs, img.timestamp ∉ cam._reorderingMap) →
        mapSize cam.getNextImage.2._reorderingMap + 1 =
          mapSize cam._reorderingMap + imgs.length ∧
        mapSize cam._reorderingMap ≤ mapSize cam.getNextImage.2._reorderingMap) := by
  obtain ⟨_, _, _, imgs, rest, t, hrel⟩ := getNextImage_returned h
  have hlen : 1 ≤ imgs.length := List.length_pos.2 hrel.acquired
  refine ⟨?_, imgs, t, hlen, ?_, ?_, hrel.scan, hrel.nonzero, hrel.stored, ?_, hrel.first, ?_⟩
  · rw [hrel.incoming]
    cases imgs with
    | nil => exact absurd rfl hrel.acquired
    | cons i is => simp
  · rw [hrel.after]; exact hrel.incoming
  · rw [hrel.after]
  · rw [hrel.after]
  · intro hnd hnew
    have hmem : t ∈ cacheAll cam._reorderingMap imgs := by
      have := hrel.scan
      unfold scanWindow at this
      exact (scanFrom_found_mem _ _ _ _ _ this).1
    have h1 := mapSize_erase_of_mem hmem
    have h2 := mapSize_cacheAll imgs cam._reorderingMap hnd hnew
    rw [hrel.after]
    simp only
    omega

/-- C10 at the tie camera: it expects `1000000` and already holds the frame of `1000001`, which a
scan of the map as it is would select; the call still acquires the frame of `999999` first, and
it is that frame the call returns. -/
theorem getNextImage_acquires_first_witness :
    scanWindow tieCamera._reorderingMap tieCamera._tNextFrameMicroseconds = .found 1000001 ∧
    tieCamera.getNextImage.1 = .returned (0, some (Mat.mk 0 0 (frameAt 999999 1))) ∧
    tieCamera.gev.incoming ≠ [] ∧
    ∃ imgs t, 1 ≤ imgs.length ∧
      tieCamera.gev.incoming = imgs.map okResult ++ tieCamera.getNextImage.2.gev.incoming ∧
      tieCamera.getNextImage.2.gev.trace =
        tieCamera.gev.trace ++ waitCalls imgs ++ [.releaseImage (frameAt 999999 1)] ∧
      scanWindow (cacheAll tieCamera._reorderingMap imgs) tieCamera._tNextFrameMicroseconds =
        .found t ∧
      t ≠ 0 ∧
      (cacheAll tieCamera._reorderingMap imgs).lookup t = some (frameAt 999999 1) ∧
      tieCamera.getNextImage.2._reorderingMap =
        (cacheAll tieCamera._reorderingMap imgs).erase t ∧
      (∀ k, 0 < k → k < imgs.length → ∀ t',
        scanWindow (cacheAll tieCamera._reorderingMap (imgs.take k))
          tieCamera._tNextFrameMicroseconds = .found t' → t' = 0) ∧
      ((imgs.map GEV_BUFFER_OBJECT.timestamp).Nodup →
        (∀ img ∈ imgs, img.timestamp ∉ tieCamera._reorderingMap) →
        mapSize tieCamera.getNextImage.2._reorderingMap + 1 =
          mapSize tieCamera._reorderingMap + imgs.length ∧
        mapSize tieCamera._reorderingMap ≤ mapSize tieCamera.getNextImage.2._reorderingMap) :=
  ⟨by decide!, by decide!,
    getNextImage_acquires_first tieCamera 0 (Mat.mk 0 0 (frameAt 999999 1)) (by decide!)⟩

/-- C6, as stated, fails: the camera opened on a first frame of `966667` expects `1000000`; the
frame of `999999` matches, and the new expected timestamp is `999999 + 33333 = 1033332`, not the
previous expected timestamp plus one period, `1033333`.  With a period of `1` the expected
timestamp even moves backward: the camera expects `1000002`, the frame of `1000000` matches and
the camera then expects `1000001`.  At the top of the `uint64_t` range two more things happen.
A camera that expects `2^64-3` scans up to `2^64-1`, which every `uint64_t` satisfies, so the
scan runs around to `0` and matches the frame of timestamp `5`, far outside the window; the
camera then expects `33338`.  A camera that expects `2^64-10` and matches there then expects the
wrapped sum `33323`. -/
theorem session_clock_follows_matched_timestamp :
    jitterCamera._tNextFrameMicroseconds = 1000000 ∧
    jitterCamera.periodMicroseconds = 33333 ∧
    jitterCamera.getNextImage.1 = .returned (0, some (Mat.mk 480 640 (frameAt 999999 1))) ∧
    jitterCamera.getNextImage.2._tNextFrameMicroseconds = 1033332 ∧
    shortPeriodCamera.periodMicroseconds = 1 ∧
    shortPeriodCamera._tNextFrameMicroseconds = 1000002 ∧
    shortPeriodCamera.getNextImage.1 =
      .returned (0, some (Mat.mk 480 640 (frameAt 1000000 1))) ∧
    shortPeriodCamera.getNextImage.2._tNextFrameMicroseconds = 1000001 ∧
    runAroundCamera.getNextImage.2._tNextFrameMicroseconds = 18446744073709551613 ∧
    runAroundCamera.getNextImage.2.getNextImage.1 =
      .returned (0, some (Mat.mk 0 0 (frameAt 5 1))) ∧
    runAroundCamera.getNextImage.2.getNextImage.2._tNextFrameMicroseconds = 33338 ∧
    overflowCamera._tNextFrameMicroseconds = 18446744073709551606 ∧
    overflowCamera.getNextImage.1 =
      .returned (0, some (Mat.mk 0 0 (frameAt 18446744073709551606 0))) ∧
    overflowCamera.getNextImage.2._tNextFrameMicroseconds = 33323 := by
  decide!

/-- C6 (amended): a call of `getNextImage` that releases a frame sets the expected timestamp to
the matched timestamp `t` plus one period in `uint64_t` arithmetic, where `t` is the key the scan
selected in the map after the call's acquisitions `imgs` and under which the returned frame was
stored (its own timestamp, when frames are stored under their timestamps); the new expected
timestamp is the number `t + period` whenever `0 ≤ t + period < 2^64`.  Whenever
`expected + 2 < 2^64 - 1`, `t` lies in `[expected-2, expected+2]`.  Under both conditions the new
expected timestamp is the previous one plus one period plus the offset `t - expected` of at most
`2` either way (exactly one period when the match is at `expected` itself), and it does not move
backward when the period is at least `2`. -/
theorem session_clock_advance (cam : DalsaCamera) (code : Int) (mat : Mat)
    (h : cam.getNextImage.1 = .returned (code, some mat)) :
    ∃ imgs t,
      cam.gev.incoming = imgs.map okResult ++ cam.getNextImage.2.gev.incoming ∧
      scanWindow (cacheAll cam._reorderingMap imgs) cam._tNextFrameMicroseconds = .found t ∧
      (cacheAll cam._reorderingMap imgs).lookup t = some mat.frame ∧
      (Keyed cam._reorderingMap → mat.frame.timestamp = t) ∧
      cam.getNextImage.2._tNextFrameMicroseconds = uint64AddInt t cam.periodMicroseconds ∧
      (0 ≤ (t : Int) + cam.periodMicroseconds →
        (t : Int) + cam.periodMicroseconds < UINT64_SIZE →
        (cam.getNextImage.2._tNextFrameMicroseconds : Int) = t + cam.periodMicroseconds) ∧
      (cam._tNextFrameMicroseconds + 2 < UINT64_SIZE - 1 →
        cam._tNextFrameMicroseconds - 2 ≤ t ∧ t ≤ cam._tNextFrameMicroseconds + 2) ∧
      (cam._tNextFrameMicroseconds + 2 < UINT64_SIZE - 1 →
        0 ≤ (t : Int) + cam.periodMicroseconds →
        (t : Int) + cam.periodMicroseconds < UINT64_SIZE →
        (cam._tNextFrameMicroseconds : Int) + cam.periodMicroseconds - 2 ≤
            cam.getNextImage.2._tNextFrameMicroseconds ∧
          (cam.getNextImage.2._tNextFrameMicroseconds : Int) ≤
            cam._tNextFrameMicroseconds + cam.periodMicroseconds + 2 ∧
          (t = cam._tNextFrameMicroseconds →
            (cam.getNextImage.2._tNextFrameMicroseconds : Int) =
              cam._tNextFrameMicroseconds + cam.periodMicroseconds) ∧
          (2 ≤ cam.periodMicroseconds →
            cam._tNextFrameMicroseconds ≤ cam.getNextImage.2._tNextFrameMicroseconds)) := by
  obtain ⟨_, _, _, imgs, rest, t, hrel⟩ := getNextImage_returned h
  have hclock : cam.getNextImage.2._tNextFrameMicroseconds =
      uint64AddInt t cam.periodMicroseconds := by rw [hrel.after]
  have hfit : 0 ≤ (t : Int) + cam.periodMicroseconds →
      (t : Int) + cam.periodMicroseconds < UINT64_SIZE →
      (cam.getNextImage.2._tNextFrameMicroseconds : Int) = t + cam.periodMicroseconds := by
    intro h0 h1
    rw [hclock]
    exact uint64AddInt_of_lt h0 h1
  have hwin : cam._tNextFrameMicroseconds + 2 < UINT64_SIZE - 1 →
      2 ≤ cam._tNextFrameMicroseconds ∧ cam._tNextFrameMicroseconds - 2 ≤ t ∧
        t ≤ cam._tNextFrameMicroseconds + 2 := by
    intro hhi
    obtain ⟨h2, _, hlo, hthi⟩ := scanWindow_found_window hhi hrel.scan
    exact ⟨h2, hlo, hthi⟩
  refine ⟨imgs, t, ?_, hrel.scan, hrel.stored, fun hk => (hrel.keyed hk).1, hclock, hfit,
    fun hhi => (hwin hhi).2, ?_⟩
  · rw [hrel.after]; exact hrel.incoming
  · intro hhi h0 h1
    obtain ⟨h2, hlo, hthi⟩ := hwin hhi
    have hnew := hfit h0 h1
    refine ⟨by omega, by omega, ?_, ?_⟩
    · intro ht; rw [hnew, ht]
    · intro hp2; omega

/-- C6 at the jitter camera: it expects `1000000`, the frame of `999999` matches (`t = 999999`,
the returned frame's timestamp) and the camera then expects `999999 + 33333 = 1033332`, one
period and an offset of `-1` later. -/
theorem session_clock_advance_witness :
    jitterCamera.getNextImage.1 = .returned (0, some (Mat.mk 480 640 (frameAt 999999 1))) ∧
    ∃ imgs t,
      jitterCamera.gev.incoming =
        imgs.map okResult ++ jitterCamera.getNextImage.2.gev.incoming ∧
      scanWindow (cacheAll jitterCamera._reorderingMap imgs)
        jitterCamera._tNextFrameMicroseconds = .found t ∧
      (cacheAll jitterCamera._reorderingMap imgs).lookup t = some (frameAt 999999 1) ∧
      t = 999999 ∧
      jitterCamera.getNextImage.2._tNextFrameMicroseconds =
        uint64AddInt t jitterCamera.periodMicroseconds ∧
      (jitterCamera.getNextImage.2._tNextFrameMicroseconds : Int) =
        t + jitterCamera.periodMicroseconds ∧
      (jitterCamera._tNextFrameMicroseconds - 2 ≤ t ∧
        t ≤ jitterCamera._tNextFrameMicroseconds + 2) ∧
      (jitterCamera._tNextFrameMicroseconds : Int) + jitterCamera.periodMicroseconds - 2 ≤
        jitterCamera.getNextImage.2._tNextFrameMicroseconds ∧
      (jitterCamera.getNextImage.2._tNextFrameMicroseconds : Int) ≤
        jitterCamera._tNextFrameMicroseconds + jitterCamera.periodMicroseconds + 2 ∧
      jitterCamera._tNextFrameMicroseconds ≤
        jitterCamera.getNextImage.2._tNextFrameMicroseconds := by
  obtain ⟨imgs, t, hin, hscan, hlook, hkey, hclock, hfit, hwin, hall⟩ :=
    session_clock_advance jitterCamera 0 (Mat.mk 480 640 (frameAt 999999 1)) (by decide!)
  have hmap : jitterCamera._reorderingMap = ∅ :=
    AList.ext (show jitterCamera._reorderingMap.entries = [] by decide!)
  have ht : t = 999999 := by
    have := hkey (by rw [hmap]; exact keyed_empty)
    rw [← this]
    decide!
  have hp : jitterCamera.periodMicroseconds = 33333 := by decide!
  have hsize := uint64_size_eq
  have h0 : 0 ≤ (t : Int) + jitterCamera.periodMicroseconds := by rw [hp]; omega
  have h1 : (t : Int) + jitterCamera.periodMicroseconds < UINT64_SIZE := by
    rw [hp, ht, hsize]; decide
  obtain ⟨hlow, hupp, _, hfwd⟩ := hall (by decide!) h0 h1
  exact ⟨by decide!, imgs, t, hin, hscan, hlook, ht, hclock, hfit h0 h1, hwin (by decide!),
    hlow, hupp, hfwd (by rw [hp]; decide)⟩

/-- C4, as stated, fails: at 30 frames a second (period `33333`) the camera expects `1000000` and
returns the frame of `999999`, then expects `1033332` and returns the frame of `1033334`; both
frames are within `2` of the slot expected, and the two timestamps differ by `33335`, not by the
period.  With a period of `1` the later timestamp is even the smaller: the camera expects
`1000002` and returns the frame of `1000000`, then expects `1000001` and returns the frame of
`999999`.  At the top of the `uint64_t` range two more things happen.  After the frame of
`2^64-33336` the camera expects `2^64-3` and scans up to `2^64-1`, which every `uint64_t`
satisfies, so the scan runs around to `0` and the next call returns the frame of timestamp `5`.
After the frame of `2^64-10` the expected timestamp is the wrapped sum `33323`, and the next call
returns the frame of `33323`. -/
theorem consecutive_timestamps_differ_by_more_than_period :
    jitterCamera._framerate = 30 ∧ jitterCamera.periodMicroseconds = 33333 ∧
    jitterCamera._tNextFrameMicroseconds = 1000000 ∧
    jitterCamera.getNextImage.1 = .returned (0, some (Mat.mk 480 640 (frameAt 999999 1))) ∧
    jitterCamera.getNextImage.2._tNextFrameMicroseconds = 1033332 ∧
    jitterCamera.getNextImage.2.getNextImage.1 =
      .returned (0, some (Mat.mk 480 640 (frameAt 1033334 2))) ∧
    (frameAt 999999 1).timestamp = 999999 ∧ (frameAt 1033334 2).timestamp = 1033334 ∧
    (frameAt 1033334 2).timestamp - (frameAt 999999 1).timestamp = 33335 ∧
    shortPeriodCamera._framerate = 1000000 ∧ shortPeriodCamera.periodMicroseconds = 1 ∧
    shortPeriodCamera.getNextImage.1 =
      .returned (0, some (Mat.mk 480 640 (frameAt 1000000 1))) ∧
    shortPeriodCamera.getNextImage.2._tNextFrameMicroseconds = 1000001 ∧
    shortPeriodCamera.getNextImage.2.getNextImage.1 =
      .returned (0, some (Mat.mk 480 640 (frameAt 999999 2))) ∧
    (frameAt 1000000 1).timestamp = 1000000 ∧ (frameAt 999999 2).timestamp = 999999 ∧
    runAroundCamera.periodMicroseconds = 33333 ∧
    runAroundCamera.getNextImage.1 =
      .returned (0, some (Mat.mk 0 0 (frameAt 18446744073709518280 0))) ∧
    (frameAt 18446744073709518280 0).timestamp = 18446744073709518280 ∧
    runAroundCamera.getNextImage.2._tNextFrameMicroseconds = 18446744073709551613 ∧
    runAroundCamera.getNextImage.2.getNextImage.1 =
      .returned (0, some (Mat.mk 0 0 (frameAt 5 1))) ∧
    (frameAt 5 1).timestamp = 5 ∧
    overflowCamera.periodMicroseconds = 33333 ∧
    overflowCamera.getNextImage.1 =
      .returned (0, some (Mat.mk 0 0 (frameAt 18446744073709551606 0))) ∧
    (frameAt 18446744073709551606 0).timestamp = 18446744073709551606 ∧
    overflowCamera.getNextImage.2._tNextFrameMicroseconds = 33323 ∧
    overflowCamera.getNextImage.2.getNextImage.1 =
      .returned (0, some (Mat.mk 0 0 (frameAt 33323 1))) ∧
    (frameAt 33323 1).timestamp = 33323 := by
  decide!

/-- C4 (amended): let `t1`, `t2` be the timestamps returned by two consecutive successful calls
of `getNextImage`, let `period` be the value of `periodMicroseconds()`, let the frames of the
pending map be stored under their own timestamps, and let `0 ≤ t1 + period` and
`t1 + period + 2 < 2^64 - 1`.  Then after the first call the camera expects the slot
`t1 + period`, and `t1 + period - 2 ≤ t2 ≤ t1 + period + 2`: the second frame matched within `2`
of that slot; the difference is exactly the period when the second frame sits on the slot, and
the later timestamp is the larger when the period exceeds `2`. -/
theorem consecutive_timestamps (cam : DalsaCamera) (c1 c2 : Int) (m1 m2 : Mat)
    (hkeyed : Keyed cam._reorderingMap)
    (h1 : cam.getNextImage.1 = .returned (c1, some m1))
    (h2 : cam.getNextImage.2.getNextImage.1 = .returned (c2, some m2))
    (hlo : 0 ≤ (m1.frame.timestamp : Int) + cam.periodMicroseconds)
    (hhi : (m1.frame.timestamp : Int) + cam.periodMicroseconds + 2 < UINT64_SIZE - 1) :
    (cam.getNextImage.2._tNextFrameMicroseconds : Int) =
      m1.frame.timestamp + cam.periodMicroseconds ∧
    (m1.frame.timestamp : Int) + cam.periodMicroseconds - 2 ≤ m2.frame.timestamp ∧
    (m2.frame.timestamp : Int) ≤ m1.frame.timestamp + cam.periodMicroseconds + 2 ∧
    (m2.frame.timestamp = cam.getNextImage.2._tNextFrameMicroseconds →
      (m2.frame.timestamp : Int) = m1.frame.timestamp + cam.periodMicroseconds) ∧
    (2 < cam.periodMicroseconds → m1.frame.timestamp < m2.frame.timestamp) := by
  obtain ⟨_, _, _, imgs1, rest1, t1, hrel1⟩ := getNextImage_returned h1
  obtain ⟨hts1, hkeyed1⟩ := hrel1.keyed hkeyed
  obtain ⟨_, _, _, imgs2, rest2, t2, hrel2⟩ := getNextImage_returned h2
  obtain ⟨hts2, _⟩ := hrel2.keyed hkeyed1
  have hnext : (cam.getNextImage.2._tNextFrameMicroseconds : Int) =
      t1 + cam.periodMicroseconds := by
    rw [hrel1.after]
    exact uint64AddInt_of_lt (by omega) (by omega)
  have hsize := uint64_size_eq
  obtain ⟨_, _, hlo2, hhi2⟩ :=
    scanWindow_found_window (e := cam.getNextImage.2._tNextFrameMicroseconds)
      (by omega) hrel2.scan
  rw [hts1, hts2]
  refine ⟨hnext, by omega, by omega, ?_, ?_⟩
  · intro heq; rw [heq]; exact hnext
  · intro hp; omega

/-- C4 at the jitter camera: `999999` is followed by `1033334`, within `2` of the slot
`999999 + 33333` the camera expects. -/
theorem consecutive_timestamps_witness :
    jitterCamera.getNextImage.1 = .returned (0, some (Mat.mk 480 640 (frameAt 999999 1))) ∧
    jitterCamera.getNextImage.2.getNextImage.1 =
      .returned (0, some (Mat.mk 480 640 (frameAt 1033334 2))) ∧
    (jitterCamera.getNextImage.2._tNextFrameMicroseconds : Int) =
      (frameAt 999999 1).timestamp + jitterCamera.periodMicroseconds ∧
    ((frameAt 999999 1).timestamp : Int) + jitterCamera.periodMicroseconds - 2 ≤
      (frameAt 1033334 2).timestamp ∧
    ((frameAt 1033334 2).timestamp : Int) ≤
      (frameAt 999999 1).timestamp + jitterCamera.periodMicroseconds + 2 ∧
    ((frameAt 1033334 2).timestamp = jitterCamera.getNextImage.2._tNextFrameMicroseconds →
      ((frameAt 1033334 2).timestamp : Int) =
        (frameAt 999999 1).timestamp + jitterCamera.periodMicroseconds) ∧
    (2 < jitterCamera.periodMicroseconds →
      (frameAt 999999 1).timestamp < (frameAt 1033334 2).timestamp) :=
  ⟨by decide!, by decide!,
    consecutive_timestamps jitterCamera 0 0 (Mat.mk 480 640 (frameAt 999999 1))
      (Mat.mk 480 640 (frameAt 1033334 2))
      (by
        have hmap : jitterCamera._reorderingMap = ∅ :=
          AList.ext (show jitterCamera._reorderingMap.entries = [] by decide!)
        rw [hmap]
        exact keyed_empty)
      (by decide!) (by decide!) (by decide!) (by decide!)⟩

/-- C7: `open` with `framerate <= 0` or with `exposureTime >= 1000000/framerate` returns `1` and
leaves the camera object and the library's side of the world as they were: no library call is
recorded in the trace (no device call, no buffer allocation, no acquisition) and the members
(`_isOpened`, `_width`, `_height`, `_framerate`, `_tNextFrameMicroseconds`) are unchanged. -/
theorem open_rejects_invalid_parameters (cam : DalsaCamera) (width height : Int)
    (framerate exposureTime : ℚ)
    (h : framerate ≤ 0 ∨ 1000000 / framerate ≤ exposureTime) :
    cam.open width height framerate exposureTime = (.returned 1, cam) ∧
    (cam.open width height framerate exposureTime).2.gev.trace = cam.gev.trace ∧
    (cam.open width height framerate exposureTime).2.gev.incoming = cam.gev.incoming := by
  have hopen : cam.open width height framerate exposureTime = (.returned 1, cam) := by
    unfold DalsaCamera.open
    by_cases hf : framerate ≤ 0
    · rw [if_pos hf]
    · rw [if_neg hf]
      have he : 1000000 / framerate ≤ exposureTime := h.resolve_left hf
      simp only [he, if_true]
  rw [hopen]
  exact ⟨rfl, rfl, rfl⟩

/-- C7 at a frame rate of `0` and at an exposure of `40000` for 30 frames a second. -/
theorem open_rejects_invalid_parameters_witness :
    ((freshCamera 30 [frameAt 1000000 0]).open 640 480 0 1000 =
        (.returned 1, freshCamera 30 [frameAt 1000000 0]) ∧
      ((freshCamera 30 [frameAt 1000000 0]).open 640 480 0 1000).2.gev.trace =
        (freshCamera 30 [frameAt 1000000 0]).gev.trace ∧
      ((freshCamera 30 [frameAt 1000000 0]).open 640 480 0 1000).2.gev.incoming =
        (freshCamera 30 [frameAt 1000000 0]).gev.incoming) ∧
    ((freshCamera 30 [frameAt 1000000 0]).open 640 480 30 40000 =
        (.returned 1, freshCamera 30 [frameAt 1000000 0]) ∧
      ((freshCamera 30 [frameAt 1000000 0]).open 640 480 30 40000).2.gev.trace =
        (freshCamera 30 [frameAt 1000000 0]).gev.trace ∧
      ((freshCamera 30 [frameAt 1000000 0]).open 640 480 30 40000).2.gev.incoming =
        (freshCamera 30 [frameAt 1000000 0]).gev.incoming) :=
  ⟨open_rejects_invalid_parameters _ 640 480 0 1000 (Or.inl le_rfl),
    open_rejects_invalid_parameters _ 640 480 30 40000 (Or.inr (by norm_num))⟩

/-- C8: `nextAcquiredImage` fails exactly when the transport gave no image object, or a status
that is not `GEVLIB_OK`, or an image object without data pointer; an image object that passes
these three checks is returned as it is, whatever its own `status` field holds. -/
theorem nextAcquiredImage_fails_iff (cam : DalsaCamera) :
    ((∃ what, cam.nextAcquiredImage.1 = .error what) ↔
      (cam.gev.waitForNextImage.1.imgGev = none ∨
        cam.gev.waitForNextImage.1.status ≠ GEVLIB_OK ∨
        ∃ img, cam.gev.waitForNextImage.1.imgGev = some img ∧ img.address = none)) ∧
    (∀ (img : GEV_BUFFER_OBJECT) (frameStatus : Int),
      cam.gev.waitForNextImage.1.imgGev = some { img with status := frameStatus } →
      cam.gev.waitForNextImage.1.status = GEVLIB_OK → img.address ≠ none →
      cam.nextAcquiredImage.1 = .ok { img with status := frameStatus }) := by
  have hdef : cam.nextAcquiredImage.1 = checkAcquired cam.gev.waitForNextImage.1 := rfl
  rw [hdef]
  generalize cam.gev.waitForNextImage.1 = r
  obtain ⟨status, imgGev⟩ := r
  constructor
  · cases imgGev with
    | none => simp [checkAcquired]
    | some i =>
      by_cases hs : status = GEVLIB_OK
      · by_cases ha : i.address = none
        · simp [checkAcquired, hs, ha]
        · simp [checkAcquired, hs, ha]
      · simp [checkAcquired, hs]
  · intro img frameStatus himg hs ha
    simp only at himg hs
    subst himg
    simp [checkAcquired, hs, ha]

/-- C3, as stated, fails for a period within the tolerance: at 500000 frames a second the period
is `2`; the camera expects `1000000` and the frames of the slots `1000000` and `1000002` arrive
in reversed order; the first call returns the frame of slot 2, `1000002`, which is inside the
window of slot 1. -/
theorem reversed_arrival_short_period_emits_slot_two_first :
    fastReversedCamera.periodMicroseconds = 2 ∧
    fastReversedCamera._tNextFrameMicroseconds = 1000000 ∧
    fastReversedCamera.gev.incoming =
      [okResult (frameAt 1000002 1), okResult (frameAt 1000000 2)] ∧
    fastReversedCamera.getNextImage.1 =
      .returned (0, some (Mat.mk 480 640 (frameAt 1000002 1))) ∧
    (frameAt 1000002 1).timestamp = 1000000 + 2 := by
  decide!

/-- C3 (amended): let the period `p` be at least `3` and let every timestamp in the pending map
and in the transport lie on the grid of the slots `expected + i*p`, in any arrival order; then in
a session of `n` successful calls of `getNextImage` the call number `j+1` returns the frame of
timestamp `expected + j*p`, so the frames come out in ascending slot order.  The windows are
assumed not to wrap (`2 ≤ expected`, `expected + n*p + 2 < 2^64`) and the frames of the map to be
stored under their timestamps. -/
theorem reordering_emits_slots_in_order (cam : DalsaCamera) (n p : Nat) (stamps : List Nat)
    (hp : cam.periodMicroseconds = p) (hp3 : 3 ≤ p)
    (he2 : 2 ≤ cam._tNextFrameMicroseconds)
    (hfit : cam._tNextFrameMicroseconds + n * p + 2 < UINT64_SIZE)
    (hkeyed : Keyed cam._reorderingMap)
    (hmap : ∀ k, k ∈ cam._reorderingMap → OnGrid cam._tNextFrameMicroseconds p k)
    (hin : ∀ img, okResult img ∈ cam.gev.incoming →
      OnGrid cam._tNextFrameMicroseconds p img.timestamp)
    (hrun : cam.sessionTimestamps n = some stamps) :
    stamps = (List.range n).map (fun j => cam._tNextFrameMicroseconds + j * p) ∧
    ∀ j, j < n → stamps[j]? = some (cam._tNextFrameMicroseconds + j * p) := by
  have hlist : stamps = (List.range n).map (fun j => cam._tNextFrameMicroseconds + j * p) := by
    unfold DalsaCamera.sessionTimestamps at hrun
    cases hsession : cam.getNextImages n with
    | none => rw [hsession] at hrun; cases hrun
    | some r =>
      obtain ⟨mats, cam'⟩ := r
      rw [hsession] at hrun
      simp only [Option.map_some', Option.some.injEq] at hrun
      rw [← hrun]
      exact getNextImages_on_grid p hp3 n cam cam' mats hp he2 hfit hkeyed hmap hin hsession
  refine ⟨hlist, ?_⟩
  intro j hj
  rw [hlist, List.getElem?_map, List.getElem?_range hj]
  rfl

/-- C3 at the reversed arrival: slot 2 (`1033333`) arrives before slot 1 (`1000000`), and the two
calls return `1000000`, then `1033333`. -/
theorem reordering_emits_slots_in_order_witness :
    reversedCamera.sessionTimestamps 2 = some [1000000, 1033333] ∧
    [1000000, 1033333] =
      (List.range 2).map (fun j => reversedCamera._tNextFrameMicroseconds + j * 33333) ∧
    ∀ j, j < 2 → [1000000, 1033333][j]? =
      some (reversedCamera._tNextFrameMicroseconds + j * 33333) :=
  ⟨by decide!,
    reordering_emits_slots_in_order reversedCamera 2 33333 [1000000, 1033333] (by decide!)
      (by decide!) (by decide!) (by decide!)
      (by
        have hmap : reversedCamera._reorderingMap = ∅ :=
          AList.ext (show reversedCamera._reorderingMap.entries = [] by decide!)
        rw [hmap]
        exact keyed_empty)
      (by
        intro k hk
        have hmap : reversedCamera._reorderingMap = ∅ :=
          AList.ext (show reversedCamera._reorderingMap.entries = [] by decide!)
        rw [hmap] at hk
        exact absurd hk (AList.not_mem_empty k))
      (by
        intro img himg
        have hincoming : reversedCamera.gev.incoming =
            [okResult (frameAt 1033333 0), okResult (frameAt 1000000 1),
              okResult (frameAt 1099999 2)] := by decide!
        rw [hincoming] at himg
        simp only [List.mem_cons, okResult, WaitResult.mk.injEq, Option.some.injEq, true_and,
          List.mem_singleton, List.not_mem_nil, or_false] at himg
        rcases himg with rfl | rfl | rfl
        · exact ⟨1, by decide!⟩
        · exact ⟨0, by decide!⟩
        · exact ⟨3, by decide!⟩)
      (by decide!)⟩

/-- C5, as stated, fails: `open` takes the first delivered frame (`1000000`) to seed the clock, so
the first call of `getNextImage` returns `1033333`; and since every call acquires before it
checks, 100 calls need more than the 100 frames: the session of 100 calls fails, also from a
camera whose clock is primed at `1000000` without taking a frame. -/
theorem end_to_end_hundred_calls_do_not_all_succeed :
    endToEndOpen.1 = .returned 0 ∧
    endToEndOpen.2.sessionTimestamps 1 = some [1033333] ∧
    endToEndOpen.2.sessionTimestamps 100 = none ∧
    endToEndPrimed.sessionTimestamps 99 =
      some ((List.range 99).map (fun i => 1000000 + i * 33333)) ∧
    endToEndPrimed.sessionTimestamps 100 = none := by
  decide!

/-- C5 (amended): at 30 frames a second (period `33333`) on the transport that delivers the 100
frames `1000000 + i*33333` in the order `0, 2, 1, 4, 3, ...`, `open` succeeds and takes frame `0`
as the seed of the clock; the next 98 calls of `getNextImage` succeed and return the frames in
ascending order, call `i` returning `1000000 + i*33333`; the 99th call fails with the acquisition
failure, the transport being exhausted, and frame `99` stays in the pending map.  From a camera
whose clock is primed at `1000000` without taking a frame, the first 99 calls succeed, call `i`
returning `1000000 + (i-1)*33333`, and the 100th call fails the same way. -/
theorem end_to_end_swapped_pairs :
    endToEndOpen.1 = .returned 0 ∧
    endToEndOpen.2.periodMicroseconds = 33333 ∧
    endToEndOpen.2._tNextFrameMicroseconds = 1000000 + 33333 ∧
    endToEndOpen.2.gev.incoming.length = 99 ∧
    endToEndOpen.2.sessionTimestamps 98 =
      some ((List.range 98).map (fun i => 1000000 + (i + 1) * 33333)) ∧
    (endToEndOpen.2.getNextImages 98).map (fun r => r.2.getNextImage.1) =
      some (.thrown acquisitionFailure) ∧
    (endToEndOpen.2.getNextImages 98).map (fun r => r.2.getNextImage.2._reorderingMap.keys) =
      some [1000000 + 99 * 33333] ∧
    endToEndPrimed.sessionTimestamps 99 =
      some ((List.range 99).map (fun i => 1000000 + i * 33333)) ∧
    (endToEndPrimed.getNextImages 99).map (fun r => r.2.getNextImage.1) =
      some (.thrown acquisitionFailure) := by
  decide!

/-- C9 fails on the code: the image object `open` acquires to seed the clock is never handed to
`GevReleaseImage` and never cached.  Right after `open` it is acquired, not released and not in
the pending map; after the 64 successful calls of the pool-size session the trace holds 65
acquisitions and 64 releases, the pending map is empty, and no released image object lies in
buffer `0`.  A duplicated timestamp loses a buffer as well: the second frame of `1033333`
replaces the first in the map, and after both `1000000` and `1033333` are released the frame in
buffer `1` is neither released nor pending. -/
theorem seed_buffer_is_never_released :
    poolSessionOpen.1 = .returned 0 ∧
    acquiredImages poolSessionOpen.2.gev.trace = [frameAt 1000000 0] ∧
    releasedImages poolSessionOpen.2.gev.trace = [] ∧
    poolSessionOpen.2._reorderingMap.keys = [] ∧
    poolSessionOpen.2.sessionTimestamps 64 =
      some ((List.range 64).map (fun i => 1000000 + (i + 1) * 33333)) ∧
    (poolSessionOpen.2.getNextImages 64).map (fun r => acquiredImages r.2.gev.trace) =
      some poolSessionFrames ∧
    (poolSessionOpen.2.getNextImages 64).map (fun r => releasedImages r.2.gev.trace) =
      some poolSessionFrames.tail ∧
    (poolSessionOpen.2.getNextImages 64).map (fun r => r.2._reorderingMap.keys) = some [] ∧
    (∀ img ∈ poolSessionFrames.tail, img.address ≠ some 0) ∧
    (duplicateCamera.getNextImages 2).map (fun r => acquiredImages r.2.gev.trace) =
      some [frameAt 1033333 1, frameAt 1033333 2, frameAt 1000000 3, frameAt 1066666 4] ∧
    (duplicateCamera.getNextImages 2).map (fun r => releasedImages r.2.gev.trace) =
      some [frameAt 1000000 3, frameAt 1033333 2] ∧
    (duplicateCamera.getNextImages 2).map (fun r => r.2._reorderingMap.entries) =
      some [⟨1066666, frameAt 1066666 4⟩] := by
  decide!

/-- C8 at a frame whose own `status` field is `7`: the call returns it as it is. -/
theorem nextAcquiredImage_fails_iff_witness :
    marginalFrameCamera.nextAcquiredImage.1 = .ok { frameAt 1000000 0 with status := 7 } :=
  (nextAcquiredImage_fails_iff marginalFrameCamera).2 (frameAt 1000000 0) 7 (by decide!)
    (by decide!) (by decide!)
